import Mathlib

/-!
Verification of the real-time messaging core of a multi-tenant
customer-messaging backend (widget / WhatsApp / Facebook-lead channels).

The definitions below are a shallow embedding of the TypeScript sources:
pure helpers become Lean functions, the relational store becomes an
explicit record of lists threaded through each handler, and the
in-process pub/sub registries become association lists mirroring the
JavaScript Map/Set semantics (insertion order, add-if-absent, delete).
Machine-level concerns (async scheduling, HTTP framing) are outside the
embedding; each HTTP handler is modelled as a function from its inputs
and the store to the resulting store plus the list of published events.
-/

/-! ## String helpers

Structural-recursion replacements for the JavaScript string operations
used by the sources (includes, split, toLowerCase), so that every
definition evaluates inside the kernel. -/

/-- chars s start with chars p (String.prototype.startsWith on char lists). -/
def charsStartWith : List Char → List Char → Bool
  | _, [] => true
  | [], _ :: _ => false
  | c :: cs, p :: ps => c == p && charsStartWith cs ps

/-- chars of the pattern occur contiguously in the subject (String.prototype.includes). -/
def charsContain (pat : List Char) : List Char → Bool
  | [] => charsStartWith [] pat
  | c :: cs => charsStartWith (c :: cs) pat || charsContain pat cs

/-- s.includes(pat) for strings. -/
def strContains (s pat : String) : Bool :=
  charsContain pat.data s.data

/-- ASCII lower-casing of one character (Char semantics of toLowerCase
on the field names the code matches). -/
def lowerChar (c : Char) : Char :=
  if 65 ≤ c.toNat ∧ c.toNat ≤ 90 then Char.ofNat (c.toNat + 32) else c

/-- s.toLowerCase() restricted to ASCII letters. -/
def strToLower (s : String) : String :=
  ⟨s.data.map lowerChar⟩

/-- Characters before the first occurrence of ch. -/
def takeUntilChar (ch : Char) : List Char → List Char
  | [] => []
  | c :: cs => if c == ch then [] else c :: takeUntilChar ch cs

/-- s.split(sep)[0] for a one-character separator: the prefix before the
first at-sign, used to derive the phone number from a WhatsApp JID. -/
def headBeforeAt (s : String) : String :=
  ⟨takeUntilChar '@' s.data⟩

/-- Value of one hex digit, none for a non-hex character. -/
def hexVal (c : Char) : Option Nat :=
  if 48 ≤ c.toNat ∧ c.toNat ≤ 57 then some (c.toNat - 48)
  else if 97 ≤ c.toNat ∧ c.toNat ≤ 102 then some (c.toNat - 87)
  else if 65 ≤ c.toNat ∧ c.toNat ≤ 70 then some (c.toNat - 55)
  else none

/-- Hex decoding of pairs of digits, stopping at the first invalid pair
(Buffer.from(s, "hex") semantics in Node). -/
def decodeHexPairs : List Char → List Nat
  | c1 :: c2 :: rest =>
    match hexVal c1, hexVal c2 with
    | some h, some l => (16 * h + l) :: decodeHexPairs rest
    | _, _ => []
  | _ => []

/-- Bytes of a hex string (Buffer.from(s, "hex")). -/
def decodeHex (s : String) : List Nat :=
  decodeHexPairs s.data

/-! ## Association-list model of the JavaScript Map

JavaScript Map semantics: lookup by key, set updates an existing entry
in place (keeping its position) or appends a new entry, delete removes
the entry. Keys are unique because they are only created through set. -/

/-- map.get(k). -/
def mapLookup {β : Type} (m : List (String × β)) (k : String) : Option β :=
  (m.find? (fun e => e.1 == k)).map (fun e => e.2)

/-- map.set(k, v). -/
def mapSet {β : Type} (m : List (String × β)) (k : String) (v : β) : List (String × β) :=
  if (m.find? (fun e => e.1 == k)).isSome then
    m.map (fun e => if e.1 == k then (k, v) else e)
  else m ++ [(k, v)]

/-- map.delete(k). -/
def mapDelete {β : Type} (m : List (String × β)) (k : String) : List (String × β) :=
  m.filter (fun e => e.1 != k)

/-! ## Agent-dashboard event bus (subscribeOrg / publishToOrg)

The source keeps a module-level Map from orgId to a Set of
SubscriberCallback records.  Each subscribeOrg call allocates a fresh
record, so two subscriptions are always two distinct set members; we
model object identity with the regId counter.  A callback is identified
by a cbId, and its behaviour under invocation is abstracted by a
predicate telling which callbacks throw. -/

/-- One member of the per-org subscriber Set: the SubscriberCallback
object { userId, callback }, with regId standing for object identity. -/
structure OrgReg where
  regId : Nat
  userId : String
  cbId : Nat
deriving DecidableEq

/-- The module state of the agent SSE bus: the fresh-object counter and
the orgId-keyed subscriber map. -/
structure OrgBus where
  nextRegId : Nat := 0
  subscribers : List (String × List OrgReg) := []
deriving DecidableEq

/-- subscribeOrg(orgId, userId, cb): ensures the Set exists, adds a fresh
SubscriberCallback, and returns the bus plus the registration identity
captured by the unsubscribe closure. -/
def subscribeOrg (b : OrgBus) (orgId userId : String) (cbId : Nat) : OrgBus × Nat :=
  let reg : OrgReg := ⟨b.nextRegId, userId, cbId⟩
  let regs := (mapLookup b.subscribers orgId).getD []
  (⟨b.nextRegId + 1, mapSet b.subscribers orgId (regs ++ [reg])⟩, b.nextRegId)

/-- The unsubscribe closure returned by subscribeOrg: deletes exactly its
own registration and drops the org entry when the set becomes empty. -/
def unsubscribeOrg (b : OrgBus) (orgId : String) (regId : Nat) : OrgBus :=
  match mapLookup b.subscribers orgId with
  | none => b
  | some regs =>
    let regs2 := regs.filter (fun r => r.regId != regId)
    if regs2.isEmpty then { b with subscribers := mapDelete b.subscribers orgId }
    else { b with subscribers := mapSet b.subscribers orgId regs2 }

/-- Set.forEach(s => s.callback(event)) with exception semantics: each
callback runs in order; a throwing callback is invoked and then aborts
the iteration (there is no try/catch in publishToOrg).  Returns the
invoked registrations and whether the loop completed normally. -/
def runOrgCallbacks (throws : Nat → Bool) : List OrgReg → List OrgReg × Bool
  | [] => ([], true)
  | r :: rest =>
    if throws r.cbId then ([r], false)
    else
      let res := runOrgCallbacks throws rest
      (r :: res.1, res.2)

/-- publishToOrg(orgId, event): invokes every currently registered
callback for the org, in registration order; no-op when absent. -/
def publishToOrg (b : OrgBus) (orgId : String) (throws : Nat → Bool) : List OrgReg × Bool :=
  match mapLookup b.subscribers orgId with
  | none => ([], true)
  | some regs => runOrgCallbacks throws regs

/-! ## Widget SSE bus (src/lib/widgetSse.ts)

Same shape keyed by contactId, but the Set holds the callback functions
themselves, so adding the same function twice is a single membership. -/

/-- Module state of the widget SSE bus: contactId to set of callbacks. -/
structure WidgetBus where
  subscribers : List (String × List Nat) := []
deriving DecidableEq

/-- subscribe(contactId, cb): ensures the Set exists and adds cb
(Set.add is a no-op when the same function is already a member). -/
def widgetSubscribe (b : WidgetBus) (contactId : String) (cbId : Nat) : WidgetBus :=
  let cbs := (mapLookup b.subscribers contactId).getD []
  let cbs2 := if cbs.contains cbId then cbs else cbs ++ [cbId]
  ⟨mapSet b.subscribers contactId cbs2⟩

/-- The unsubscribe closure returned by subscribe. -/
def widgetUnsubscribe (b : WidgetBus) (contactId : String) (cbId : Nat) : WidgetBus :=
  match mapLookup b.subscribers contactId with
  | none => b
  | some cbs =>
    let cbs2 := cbs.filter (fun c => c != cbId)
    if cbs2.isEmpty then ⟨mapDelete b.subscribers contactId⟩
    else ⟨mapSet b.subscribers contactId cbs2⟩

/-- Widget Set.forEach((cb) => cb(msg)) with the same exception
semantics as the org bus. -/
def runWidgetCallbacks (throws : Nat → Bool) : List Nat → List Nat × Bool
  | [] => ([], true)
  | c :: rest =>
    if throws c then ([c], false)
    else
      let res := runWidgetCallbacks throws rest
      (c :: res.1, res.2)

/-- publish(contactId, msg) on the widget bus. -/
def widgetPublish (b : WidgetBus) (contactId : String) (throws : Nat → Bool) : List Nat × Bool :=
  match mapLookup b.subscribers contactId with
  | none => ([], true)
  | some cbs => runWidgetCallbacks throws cbs

/-! ## Canonical data model (Prisma Contact / Message rows)

The relational store is an explicit record of row lists; @updatedAt is
modelled by every update call stamping the supplied clock value. -/

/-- A Contact row, with the fields the messaging core reads or writes. -/
structure Contact where
  id : Nat
  organizationId : String
  channelId : Option String := none
  externalId : Option String := none
  phone : Option String := none
  name : String := ""
  email : Option String := none
  convStatus : Option String := none
  assignedToId : Option String := none
  createdAt : Nat := 0
  updatedAt : Nat := 0
deriving DecidableEq

/-- A Message row. -/
structure Message where
  id : Nat
  organizationId : String
  contactId : Nat
  channelId : Option String
  direction : String
  type : String
  content : String
  status : String
  externalId : Option String
  createdAt : Nat
deriving DecidableEq

/-- The store visible to the messaging handlers, with id counters for
row creation. -/
structure DB where
  contacts : List Contact := []
  messages : List Message := []
  nextContactId : Nat := 0
  nextMessageId : Nat := 0
deriving DecidableEq

/-- Identity of the channel resolved for a request. -/
structure ChannelInfo where
  id : String
  organizationId : String
deriving DecidableEq

/-- An event published to the organization topic. -/
inductive Event where
  | newMessage (contactId : Nat) (messageId : Nat) (direction : String) (withContact : Bool)
  | convUpdated (contactId : Nat) (convStatus : String) (assignedToId : Option String)
deriving DecidableEq

/-- Keeps the conv_updated events of a publish trace. -/
def convUpdatedEvents (evs : List Event) : List Event :=
  evs.filter (fun e => match e with
    | Event.convUpdated _ _ _ => true
    | _ => false)

/-- Keeps the new_message events of a publish trace. -/
def newMessageEvents (evs : List Event) : List Event :=
  evs.filter (fun e => match e with
    | Event.newMessage _ _ _ _ => true
    | _ => false)

/-- prisma.contact.findFirst({ where: { organizationId, externalId } }). -/
def findContactByExternalId (contacts : List Contact) (orgId jid : String) : Option Contact :=
  contacts.find? (fun c => c.organizationId == orgId && c.externalId == some jid)

/-- prisma.contact.update({ where: { id } , data }): applies f to the
matching row (f always preserves the id at every call site). -/
def updateContacts (contacts : List Contact) (id : Nat) (f : Contact → Contact) : List Contact :=
  contacts.map (fun c => if c.id == id then f c else c)

/-- convStatus of the first row with the given id. -/
def contactStatusById (db : DB) (id : Nat) : Option (Option String) :=
  (db.contacts.find? (fun c => c.id == id)).map (fun c => c.convStatus)

/-- updatedAt of the first row with the given id. -/
def contactUpdatedAtById (db : DB) (id : Nat) : Option Nat :=
  (db.contacts.find? (fun c => c.id == id)).map (fun c => c.updatedAt)

/-- The (id, assignedToId) view of the contact table, used to state that
an operation leaves every assignment untouched. -/
def assignmentView (contacts : List Contact) : List (Nat × Option String) :=
  contacts.map (fun c => (c.id, c.assignedToId))

/-! ## WhatsApp webhook: MESSAGES_UPSERT

Embedding of the MESSAGES_UPSERT branch of POST /channels/whatsapp/webhook.
The nested union of possible message-content fields is a structure of
optional fields checked in source order, including JavaScript truthiness
(an empty string is falsy). -/

/-- The data.message union of an Evolution-API MESSAGES_UPSERT event.
An outer some marks the field as present; inner options are optional
caption / fileName / reaction-text subfields. -/
structure WaMessage where
  conversation : Option String := none
  extendedTextMessageText : Option String := none
  imageMessage : Option (Option String) := none
  videoMessage : Option (Option String) := none
  audioMessage : Bool := false
  documentMessage : Option (Option String) := none
  stickerMessage : Bool := false
  locationMessage : Bool := false
  contactMessage : Bool := false
  reactionMessageText : Option (Option String) := none
deriving DecidableEq

/-- JavaScript truthiness of an optional string field. -/
def optTruthy (o : Option String) : Bool :=
  match o with
  | some s => s ≠ ""
  | none => false

/-- The if-chain detecting message type and content: returns
(content, msgType) exactly in source order. -/
def parseWaMessage (m : WaMessage) : String × String :=
  if optTruthy m.conversation then (m.conversation.getD "", "text")
  else if optTruthy m.extendedTextMessageText then (m.extendedTextMessageText.getD "", "text")
  else match m.imageMessage with
  | some cap => (cap.getD "", "image")
  | none => match m.videoMessage with
    | some cap => (cap.getD "", "video")
    | none =>
      if m.audioMessage then ("", "audio")
      else match m.documentMessage with
      | some fileName => (fileName.getD "", "document")
      | none =>
        if m.stickerMessage then ("", "sticker")
        else if m.locationMessage then ("[Localização]", "text")
        else if m.contactMessage then ("[Contato]", "text")
        else match m.reactionMessageText with
        | some t => ("[Reação: " ++ t.getD "" ++ "]", "text")
        | none => ("", "text")

/-- The media kinds recognized by the webhook. -/
def isMediaType (t : String) : Bool :=
  t == "image" || t == "audio" || t == "video" || t == "document" || t == "sticker"

/-- Only individual chats are processed (remoteJid contains
"@s.whatsapp.net" or "@c.us", groups are skipped). -/
def jidIndividual (jid : String) : Bool :=
  strContains jid "@s.whatsapp.net" || strContains jid "@c.us"

/-- content || isMedia: the gate deciding whether the payload is stored
at all. -/
def acceptedWaMessage (m : WaMessage) : Bool :=
  let pr := parseWaMessage m
  pr.1 ≠ "" || isMediaType pr.2

/-- A MESSAGES_UPSERT payload after field extraction: key.remoteJid,
key.fromMe, key.id, data.pushName and data.message. -/
structure WaPayload where
  remoteJid : String
  fromMe : Bool
  keyId : String
  pushName : Option String := none
  message : WaMessage
deriving DecidableEq

/-- pushName || rawNumber || fallback (JavaScript or-chains on strings). -/
def strOr (o : Option String) (d : String) : String :=
  match o with
  | some s => if s = "" then d else s
  | none => d

/-- The inbound-name refresh: an inbound message with a truthy pushName
different from the stored name updates the row (bumping @updatedAt) and
mutates the local contact variable. -/
def nameUpdateStep (db : DB) (p : WaPayload) (contact : Contact) (now : Nat) : DB × Contact :=
  if p.fromMe = false ∧ optTruthy p.pushName = true ∧ p.pushName ≠ some contact.name then
    let pn := p.pushName.getD ""
    let contacts2 := updateContacts db.contacts contact.id
      (fun c => { c with name := pn, updatedAt := now })
    ({ db with contacts := contacts2 }, { contact with name := pn })
  else (db, contact)

/-- prisma.message.create: appends the row and returns it.  There is no
lookup by externalId before the insert. -/
def createMessageStep (db : DB) (orgId : String) (chId : Option String) (contactId : Nat)
    (direction msgType content : String) (extId : Option String) (now : Nat) : DB × Message :=
  let msg : Message :=
    ⟨db.nextMessageId, orgId, contactId, chId, direction, msgType, content, "sent", extId, now⟩
  ({ db with messages := db.messages ++ [msg], nextMessageId := db.nextMessageId + 1 }, msg)

/-- needsStatusUpdate = !convStatus || convStatus === "resolved"
(null and the empty string are both falsy). -/
def needsStatusUpdate (st : Option String) : Bool :=
  match st with
  | none => true
  | some s => s == "" || s == "resolved"

/-- The inbound status step on an existing contact: always update the
row so @updatedAt is renewed, move to pending only from a falsy or
resolved status, and publish conv_updated exactly when the status
changed. -/
def inboundStatusStep (db : DB) (contact : Contact) (now : Nat) : DB × List Event :=
  if needsStatusUpdate contact.convStatus then
    let contacts2 := updateContacts db.contacts contact.id
      (fun c => { c with convStatus := some "pending", updatedAt := now })
    ({ db with contacts := contacts2 },
     [Event.convUpdated contact.id "pending" contact.assignedToId])
  else
    let contacts2 := updateContacts db.contacts contact.id
      (fun c => { c with convStatus := contact.convStatus, updatedAt := now })
    ({ db with contacts := contacts2 }, [])

/-- Branch taken when no contact matches (organizationId, remoteJid):
derive the display name and phone from the JID, create the contact as
pending, store the message, and publish new_message enriched with the
contact summary.  The inbound status step is skipped (isNewContact). -/
def newContactPath (db : DB) (ch : ChannelInfo) (p : WaPayload)
    (direction msgType content : String) (now : Nat) : DB × List Event :=
  let rawNumber := headBeforeAt p.remoteJid
  let contactName :=
    if p.fromMe then strOr (some rawNumber) "Contato"
    else strOr p.pushName (strOr (some rawNumber) "Desconhecido")
  let contact : Contact :=
    { id := db.nextContactId, organizationId := ch.organizationId,
      channelId := some ch.id, externalId := some p.remoteJid,
      phone := if rawNumber = "" then none else some ("+" ++ rawNumber),
      name := contactName, email := none, convStatus := some "pending",
      assignedToId := none, createdAt := now, updatedAt := now }
  let contacts2 := db.contacts ++ [contact]
  let db1 := { db with contacts := contacts2, nextContactId := db.nextContactId + 1 }
  let res := createMessageStep db1 ch.organizationId (some ch.id) contact.id
      direction msgType content (some p.keyId) now
  (res.1, [Event.newMessage contact.id res.2.id direction true])

/-- Branch taken when the contact already exists: optional name refresh,
message insert, new_message publish, then the inbound status step when
the message is not self-sent. -/
def existingContactPath (db : DB) (ch : ChannelInfo) (p : WaPayload) (contact : Contact)
    (direction msgType content : String) (now : Nat) : DB × List Event :=
  let s1 := nameUpdateStep db p contact now
  let s2 := createMessageStep s1.1 ch.organizationId (some ch.id) s1.2.id
      direction msgType content (some p.keyId) now
  let ev1 := Event.newMessage s1.2.id s2.2.id direction false
  if p.fromMe = false then
    let s3 := inboundStatusStep s2.1 s1.2 now
    (s3.1, ev1 :: s3.2)
  else (s2.1, [ev1])

/-- The MESSAGES_UPSERT branch of POST /channels/whatsapp/webhook, for
the channel resolved from the instance name: skip group JIDs, parse the
message union, drop payloads with no content and no media kind, then
resolve-or-create the contact, store the message and publish. -/
def handleMessagesUpsert (db : DB) (ch : ChannelInfo) (p : WaPayload) (now : Nat) :
    DB × List Event :=
  if jidIndividual p.remoteJid = false then (db, [])
  else if acceptedWaMessage p.message = false then (db, [])
  else
    match findContactByExternalId db.contacts ch.organizationId p.remoteJid with
    | none =>
      newContactPath db ch p (if p.fromMe then "outbound" else "inbound")
        (parseWaMessage p.message).2 (parseWaMessage p.message).1 now
    | some contact =>
      existingContactPath db ch p contact (if p.fromMe then "outbound" else "inbound")
        (parseWaMessage p.message).2 (parseWaMessage p.message).1 now

/-! ## Widget routes (POST /widget/session, POST /widget/messages)

The apiKey has already resolved the channel; the handlers receive the
resolved ChannelInfo.  Schema validation (minLength 1 on name, email and
content) is modelled by rejecting empty strings up front. -/

/-- resolveContact(contactId, channelId, orgId): the pairing check run
on every widget call. -/
def resolveWidgetContact (contacts : List Contact) (contactId : Nat) (channelId orgId : String) :
    Option Contact :=
  contacts.find? (fun c =>
    c.id == contactId && c.channelId == some channelId && c.organizationId == orgId)

/-- The visitor lookup of POST /widget/session: findFirst by
(organizationId, channelId, email). -/
def findWidgetSessionContact (contacts : List Contact) (ch : ChannelInfo) (email : String) :
    Option Contact :=
  contacts.find? (fun c =>
    c.organizationId == ch.organizationId && c.channelId == some ch.id && c.email == some email)

/-- The phone-change test of POST /widget/session: a supplied, truthy
phone different from the stored one. -/
def phoneChangedCheck (phone : Option String) (contact : Contact) : Bool :=
  match phone with
  | some p => p != "" && contact.phone != some p
  | none => false

/-- The response body of POST /widget/session. -/
structure SessionResult where
  contactId : Nat
  name : String
  isNew : Bool
deriving DecidableEq

/-- POST /widget/session: resume the visitor contact matched by email,
updating only changed, non-empty name and phone, or create a new
contact.  none models the schema rejection of empty name or email. -/
def widgetPostSession (db : DB) (ch : ChannelInfo) (name email : String)
    (phone : Option String) (now : Nat) : Option (DB × SessionResult) :=
  if name = "" ∨ email = "" then none
  else
    match findWidgetSessionContact db.contacts ch email with
    | some contact =>
      let nameChanged : Bool := name != "" && contact.name != name
      let phoneChanged : Bool := phoneChangedCheck phone contact
      if nameChanged || phoneChanged then
        let contacts2 := updateContacts db.contacts contact.id (fun c =>
          { c with name := if nameChanged then name else c.name,
                   phone := if phoneChanged then phone else c.phone,
                   updatedAt := now })
        some ({ db with contacts := contacts2 },
              ⟨contact.id, if nameChanged then name else contact.name, false⟩)
      else some (db, ⟨contact.id, contact.name, false⟩)
    | none =>
      let contact : Contact :=
        { id := db.nextContactId, organizationId := ch.organizationId,
          channelId := some ch.id, externalId := none,
          phone := match phone with
            | some p => if p = "" then none else some p
            | none => none,
          name := name, email := some email, convStatus := none,
          assignedToId := none, createdAt := now, updatedAt := now }
      let contacts2 := db.contacts ++ [contact]
      some ({ db with contacts := contacts2, nextContactId := db.nextContactId + 1 },
            ⟨contact.id, contact.name, true⟩)

/-- POST /widget/messages: after the (apiKey, contactId) pairing check,
store the inbound text message and publish new_message to the
organization topic.  The contact row is not touched: no convStatus
transition and no updatedAt bump happen on this path. -/
def widgetPostMessage (db : DB) (ch : ChannelInfo) (contactId : Nat) (content : String)
    (now : Nat) : Option (DB × List Event) :=
  if content = "" then none
  else
    match resolveWidgetContact db.contacts contactId ch.id ch.organizationId with
    | none => none
    | some _ =>
      let res := createMessageStep db ch.organizationId (some ch.id) contactId
          "inbound" "text" content none now
      some (res.1, [Event.newMessage contactId res.2.id "inbound" false])

/-! ## AssignmentPolicy: selectAgentRoundRobin

The source sorts the candidate array by current load with
Array.prototype.sort, which ECMAScript guarantees to be stable, and
returns the first element.  The stable sort is modelled by an insertion
sort that keeps earlier elements first on equal loads. -/

/-- One candidate of getAvailableAgents: the member userId and the count
of currently open-or-pending assigned conversations (getAgentLoad). -/
structure AgentInfo where
  userId : String
  load : Nat
deriving DecidableEq

/-- Stable insertion into a load-sorted list: the new element goes
before strictly larger loads only, so earlier input elements keep
priority on ties.  The new element comes from earlier in the input than
everything already inserted, hence the ≤ comparison. -/
def insertByLoad (a : AgentInfo) : List AgentInfo → List AgentInfo
  | [] => [a]
  | b :: rest => if a.load ≤ b.load then a :: b :: rest else b :: insertByLoad a rest

/-- agents.sort((a, b) => getAgentLoad(a) - getAgentLoad(b)) as a stable
sort. -/
def sortByLoad : List AgentInfo → List AgentInfo
  | [] => []
  | a :: rest => insertByLoad a (sortByLoad rest)

/-- selectAgentRoundRobin(agents): null on an empty pool, otherwise the
userId of the first element after the stable sort by load. -/
def selectAgentRoundRobin (agents : List AgentInfo) : Option String :=
  match sortByLoad agents with
  | [] => none
  | a :: _ => some a.userId

/-- Transcription of the specified strategy: the first agent of the
input pool whose load is minimal over the whole pool (ties broken by
stable input order), none on an empty pool.  Stated from the spec words
to compare with selectAgentRoundRobin. -/
def selectAgentRoundRobinSpec (agents : List AgentInfo) : Option String :=
  (agents.find? (fun a => agents.all (fun b => a.load ≤ b.load))).map AgentInfo.userId

/-- Recursive first-minimum of a pool: on ties the earlier element wins. -/
def firstMinimal : List AgentInfo → Option AgentInfo
  | [] => none
  | a :: rest =>
    match firstMinimal rest with
    | none => some a
    | some b => if b.load < a.load then some b else some a

/-! ## Facebook lead webhook (POST /campaigns/facebook/webhook/:orgId)

The Graph-API fetch and the HMAC-SHA256 digest are external
collaborators, passed in as functions; signature comparison is the
length check plus timingSafeEqual on the hex-decoded buffers, modelled
by equality of the decoded byte lists. -/

/-- The organization fields the webhook reads. -/
structure FbOrg where
  id : String
  fbAppSecret : Option String
deriving DecidableEq

/-- A Campaign row, with the matching fields. -/
structure Campaign where
  id : String
  organizationId : String
  fbPageId : Option String
  fbFormIds : List String
  fbPageToken : Option String
deriving DecidableEq

/-- A CampaignLead row. -/
structure CampaignLead where
  campaignId : String
  contactId : Option Nat
  fbLeadId : String
  source : String
  formName : Option String
deriving DecidableEq

/-- The store the campaign webhook touches. -/
structure LeadDB where
  contacts : List Contact := []
  campaigns : List Campaign := []
  campaignLeads : List CampaignLead := []
  nextContactId : Nat := 0
deriving DecidableEq

/-- One leadgen change of a webhook entry. -/
structure LeadChange where
  field : String
  leadgenId : String
  pageId : String
  formId : String
deriving DecidableEq

/-- The lead payload returned by the Graph API. -/
structure LeadData where
  fieldData : List (String × List String)
  adName : Option String
deriving DecidableEq

/-- The get(keys) helper of extractLeadFields: for each preferred key in
order, find the first field whose lower-cased name contains the key and
whose first value is truthy. -/
def leadFieldGet (fieldData : List (String × List String)) : List String → Option String
  | [] => none
  | k :: rest =>
    match fieldData.find? (fun d => strContains (strToLower d.1) k) with
    | some d =>
      match d.2.head? with
      | some v => if v = "" then leadFieldGet fieldData rest else some v
      | none => leadFieldGet fieldData rest
    | none => leadFieldGet fieldData rest

/-- extractLeadFields(field_data): best-effort name, email, phone. -/
def extractLeadFields (fieldData : List (String × List String)) :
    Option String × Option String × Option String :=
  (leadFieldGet fieldData ["full_name", "nome", "name", "first_name"],
   leadFieldGet fieldData ["email"],
   leadFieldGet fieldData ["phone", "telefone", "celular", "mobile"])

/-- prisma.contact.create for a lead (no channel, no conversation state). -/
def createLeadContact (db : LeadDB) (orgId name : String)
    (email phone : Option String) (now : Nat) : LeadDB × Option Nat :=
  let c : Contact :=
    { id := db.nextContactId, organizationId := orgId, channelId := none,
      externalId := none, phone := phone, name := name, email := email,
      convStatus := none, assignedToId := none, createdAt := now, updatedAt := now }
  let contacts2 := db.contacts ++ [c]
  ({ db with contacts := contacts2, nextContactId := db.nextContactId + 1 }, some c.id)

/-- Per-change processing of the leadgen loop: campaign match by
(organizationId, page_id), form-id filter, dedup by fbLeadId, Graph-API
fetch, contact upsert keyed by email, CampaignLead insert. -/
def processLeadChange (db : LeadDB) (orgId : String)
    (fetchLead : String → String → Option LeadData) (now : Nat)
    (change : LeadChange) : LeadDB :=
  if change.field != "leadgen" then db
  else
    match db.campaigns.find? (fun c =>
        c.organizationId == orgId && c.fbPageId == some change.pageId) with
    | none => db
    | some campaign =>
      if campaign.fbFormIds ≠ [] ∧ change.formId ∉ campaign.fbFormIds then db
      else if (db.campaignLeads.find? (fun l => l.fbLeadId == change.leadgenId)).isSome then db
      else
        match campaign.fbPageToken with
        | none => db
        | some tok =>
          if tok = "" then db
          else
            match fetchLead change.formId change.leadgenId with
            | none => db
            | some leadData =>
              let fields := extractLeadFields leadData.fieldData
              let name := fields.1
              let email := fields.2.1
              let phone := fields.2.2
              let upsert : LeadDB × Option Nat :=
                if name.isSome || email.isSome || phone.isSome then
                  let contactName := strOr name (strOr email (strOr phone "Lead Facebook"))
                  match email with
                  | some e =>
                    if e = "" then createLeadContact db orgId contactName email phone now
                    else
                      match db.contacts.find? (fun c =>
                          c.organizationId == orgId && c.email == some e) with
                      | some c => (db, some c.id)
                      | none => createLeadContact db orgId contactName email phone now
                  | none => createLeadContact db orgId contactName email phone now
                else (db, none)
              let lead : CampaignLead :=
                ⟨campaign.id, upsert.2, change.leadgenId, "facebook", leadData.adName⟩
              let leads2 := upsert.1.campaignLeads ++ [lead]
              { upsert.1 with campaignLeads := leads2 }

/-- Outcome of the webhook POST: the immediate acknowledgment or the
signature rejection. -/
inductive FbResponse where
  | eventReceived
  | forbidden
deriving DecidableEq

/-- POST /campaigns/facebook/webhook/:orgId.  Ack without processing
when the organization or its app secret is missing; verify the
x-hub-signature-256 header only when a signature was supplied and a raw
body was captured; reject with 403 on mismatch before any processing;
otherwise acknowledge and run the leadgen loop. -/
def facebookLeadWebhook (db : LeadDB) (org : Option FbOrg) (orgId : String)
    (signature rawBody : Option String) (bodyObject : String)
    (entries : List (List LeadChange))
    (hmacHex : String → String → String)
    (fetchLead : String → String → Option LeadData) (now : Nat) :
    FbResponse × LeadDB :=
  match org with
  | none => (FbResponse.eventReceived, db)
  | some o =>
    match o.fbAppSecret with
    | none => (FbResponse.eventReceived, db)
    | some secret =>
      if secret = "" then (FbResponse.eventReceived, db)
      else
        let rejected : Bool :=
          match signature with
          | some sig =>
            if sig = "" then false
            else
              match rawBody with
              | some raw =>
                if raw = "" then false
                else decodeHex sig != decodeHex (hmacHex secret raw)
              | none => false
          | none => false
        if rejected then (FbResponse.forbidden, db)
        else if bodyObject != "page" || entries.isEmpty then (FbResponse.eventReceived, db)
        else
          (FbResponse.eventReceived,
           entries.foldl (fun d changes =>
             changes.foldl (fun d2 c => processLeadChange d2 orgId fetchLead now c) d) db)

/-! ## Concrete inputs used by the counterexamples and witnesses -/

/-- The rows of the Message table carrying a given gateway message id
within one organization (the replay-dedup key of the spec). -/
def messagesWithExternalId (db : DB) (orgId extId : String) : List Message :=
  db.messages.filter (fun m => m.organizationId == orgId && m.externalId == some extId)

/-- A connected WhatsApp channel of org1. -/
def waDemoChannel : ChannelInfo := ⟨"ch-wa", "org1"⟩

/-- The MESSAGES_UPSERT payload of the spec scenario: inbound text "oi"
from an individual JID, with the gateway message id key.id. -/
def waDemoPayload : WaPayload :=
  { remoteJid := "5511999990000@s.whatsapp.net", fromMe := false,
    keyId := "3EB0ABC123", pushName := some "Ana",
    message := { conversation := some "oi" } }

/-- The widget channel of org1. -/
def widgetDemoChannel : ChannelInfo := ⟨"ch-widget", "org1"⟩

/-- A widget contact whose conversation an agent has resolved, last
active at time 3. -/
def widgetResolvedContact : Contact :=
  { id := 0, organizationId := "org1", channelId := some "ch-widget",
    externalId := none, phone := none, name := "Ana",
    email := some "ana@x.com", convStatus := some "resolved",
    assignedToId := none, createdAt := 0, updatedAt := 3 }

/-- A store holding only that resolved widget contact. -/
def widgetDemoDb : DB :=
  { contacts := [widgetResolvedContact], messages := [],
    nextContactId := 1, nextMessageId := 0 }

/-- A WhatsApp contact of org1 whose conversation is open and assigned,
last active at time 3. -/
def waOpenContact : Contact :=
  { id := 0, organizationId := "org1", channelId := some "ch-wa",
    externalId := some "5511999990000@s.whatsapp.net",
    phone := some "+5511999990000", name := "Ana", email := none,
    convStatus := some "open", assignedToId := some "agent-1",
    createdAt := 0, updatedAt := 3 }

/-- A store holding only that open WhatsApp contact. -/
def waOpenDb : DB :=
  { contacts := [waOpenContact], messages := [], nextContactId := 1, nextMessageId := 0 }

/-- An org bus with two live dashboard subscriptions (callbacks 0 and 1,
registered in this order) on the org1 topic. -/
def demoOrgBus : OrgBus :=
  (subscribeOrg (subscribeOrg {} "org1" "alice" 0).1 "org1" "bob" 1).1

/-- Behaviour where callback 0 throws and every other callback returns. -/
def demoThrows : Nat → Bool := fun n => n == 0

/-- A widget bus with two live streams (callbacks 0 and 1) for contact c1. -/
def demoWidgetBus : WidgetBus :=
  widgetSubscribe (widgetSubscribe {} "c1" 0) "c1" 1

/-- An org bus with a single live subscription (callback 0) on org1. -/
def demoSingleBus : OrgBus := (subscribeOrg {} "org1" "alice" 0).1

/-- A widget bus with a single live stream (callback 7) for contact c1. -/
def demoSingleWidgetBus : WidgetBus := widgetSubscribe {} "c1" 7

/-- A campaign of org1 listening on Facebook page PAGE1 with no form
filter. -/
def leadDemoCampaign : Campaign :=
  ⟨"camp1", "org1", some "PAGE1", [], some "tok"⟩

/-- A lead store holding that campaign and nothing else. -/
def leadDemoDb : LeadDB :=
  { contacts := [], campaigns := [leadDemoCampaign], campaignLeads := [], nextContactId := 0 }

/-- One leadgen change for that page. -/
def leadDemoChange : LeadChange := ⟨"leadgen", "L1", "PAGE1", "F1"⟩

/-- The Graph-API lead payload: a single email field. -/
def leadDemoData : LeadData := ⟨[("Email", ["ana@x.com"])], some "Ad 1"⟩

/-- A Graph-API stub returning that payload for every lead. -/
def leadDemoFetch : String → String → Option LeadData := fun _ _ => some leadDemoData

/-- An HMAC stub whose hex digest is always "ab". -/
def leadDemoHmac : String → String → String := fun _ _ => "ab"

/-! ## Helper lemmas: JavaScript Map model -/

theorem find?_map_set {β : Type} [DecidableEq β] (m : List (String × β)) (k : String) (v : β) :
    (m.map (fun e => if e.1 == k then (k, v) else e)).find? (fun e => e.1 == k) =
      (m.find? (fun e => e.1 == k)).map (fun _ => (k, v)) := by
  induction m with
  | nil => rfl
  | cons e rest ih =>
    by_cases he : e.1 == k
    · simp [List.find?, he]
    · simp only [List.map, List.find?, he, if_neg]
      rw [if_neg (by simp [he]), ih]
      simp [List.find?, he]

theorem mapLookup_mapSet_self {β : Type} [DecidableEq β]
    (m : List (String × β)) (k : String) (v : β) :
    mapLookup (mapSet m k v) k = some v := by
  unfold mapLookup mapSet
  by_cases hs : (m.find? (fun e => e.1 == k)).isSome
  · rw [if_pos hs, find?_map_set]
    obtain ⟨e, he⟩ := Option.isSome_iff_exists.mp hs
    simp [he]
  · rw [if_neg hs, List.find?_append]
    have hnone : m.find? (fun e => e.1 == k) = none := Option.not_isSome_iff_eq_none.mp hs
    simp [hnone, List.find?]

theorem mapLookup_mapDelete_self {β : Type} (m : List (String × β)) (k : String) :
    mapLookup (mapDelete m k) k = none := by
  unfold mapLookup mapDelete
  induction m with
  | nil => rfl
  | cons e rest ih =>
    by_cases he : e.1 == k
    · simp [List.filter, bne, he, ih]
    · simp only [List.filter, bne, he]
      simp [List.find?, he, ih]

/-! ## Helper lemmas: callback iteration -/

theorem runOrgCallbacks_mem (throws : Nat → Bool) (regs : List OrgReg) :
    ∀ r ∈ (runOrgCallbacks throws regs).1, r ∈ regs := by
  induction regs with
  | nil => intro r hr; cases hr
  | cons a rest ih =>
    intro r hr
    by_cases ha : throws a.cbId
    · simp only [runOrgCallbacks, if_pos ha] at hr
      simp only [List.mem_singleton] at hr
      simp [hr]
    · simp only [runOrgCallbacks, if_neg ha, List.mem_cons] at hr
      rcases hr with h | h
      · simp [h]
      · exact List.mem_cons_of_mem _ (ih r h)

theorem runOrgCallbacks_all_ok (throws : Nat → Bool) (regs : List OrgReg)
    (h : ∀ r ∈ regs, throws r.cbId = false) :
    runOrgCallbacks throws regs = (regs, true) := by
  induction regs with
  | nil => rfl
  | cons a rest ih =>
    have ha : throws a.cbId = false := h a (List.mem_cons_self a rest)
    have ih2 := ih (fun r hr => h r (List.mem_cons_of_mem a hr))
    simp [runOrgCallbacks, ha, ih2]

theorem runOrgCallbacks_first_throw (throws : Nat → Bool) (l1 l2 : List OrgReg) (r : OrgReg)
    (h1 : ∀ x ∈ l1, throws x.cbId = false) (h2 : throws r.cbId = true) :
    runOrgCallbacks throws (l1 ++ r :: l2) = (l1 ++ [r], false) := by
  induction l1 with
  | nil => simp [runOrgCallbacks, h2]
  | cons a rest ih =>
    have ha : throws a.cbId = false := h1 a (List.mem_cons_self a rest)
    have ih2 := ih (fun x hx => h1 x (List.mem_cons_of_mem a hx))
    simp [runOrgCallbacks, ha, ih2]

theorem runWidgetCallbacks_mem (throws : Nat → Bool) (cbs : List Nat) :
    ∀ c ∈ (runWidgetCallbacks throws cbs).1, c ∈ cbs := by
  induction cbs with
  | nil => intro c hc; cases hc
  | cons a rest ih =>
    intro c hc
    by_cases ha : throws a
    · simp only [runWidgetCallbacks, if_pos ha] at hc
      simp only [List.mem_singleton] at hc
      simp [hc]
    · simp only [runWidgetCallbacks, if_neg ha, List.mem_cons] at hc
      rcases hc with h | h
      · simp [h]
      · exact List.mem_cons_of_mem _ (ih c h)

theorem runWidgetCallbacks_all_ok (throws : Nat → Bool) (cbs : List Nat)
    (h : ∀ c ∈ cbs, throws c = false) :
    runWidgetCallbacks throws cbs = (cbs, true) := by
  induction cbs with
  | nil => rfl
  | cons a rest ih =>
    have ha : throws a = false := h a (List.mem_cons_self a rest)
    have ih2 := ih (fun c hc => h c (List.mem_cons_of_mem a hc))
    simp [runWidgetCallbacks, ha, ih2]

theorem runWidgetCallbacks_first_throw (throws : Nat → Bool) (l1 l2 : List Nat) (c : Nat)
    (h1 : ∀ x ∈ l1, throws x = false) (h2 : throws c = true) :
    runWidgetCallbacks throws (l1 ++ c :: l2) = (l1 ++ [c], false) := by
  induction l1 with
  | nil => simp [runWidgetCallbacks, h2]
  | cons a rest ih =>
    have ha : throws a = false := h1 a (List.mem_cons_self a rest)
    have ih2 := ih (fun x hx => h1 x (List.mem_cons_of_mem a hx))
    simp [runWidgetCallbacks, ha, ih2]

/-! ## C3: handler isolation under publish -/

/-- C3 counterexample: on the org1 topic two handlers (callbacks 0 and 1)
are registered in this order, yet a single publish during which callback
0 throws invokes only callback 0 — the remaining registered handler is
never reached, refuting the claim that a throwing handler does not
prevent the remaining handlers of the topic from being invoked. -/
theorem c3_throwing_handler_stops_fanout_counterexample :
    mapLookup demoOrgBus.subscribers "org1" =
      some [⟨0, "alice", 0⟩, ⟨1, "bob", 1⟩] ∧
    (publishToOrg demoOrgBus "org1" demoThrows).1 = [⟨0, "alice", 0⟩] ∧
    (publishToOrg demoOrgBus "org1" demoThrows).2 = false := by
  refine ⟨by decide, by decide, by decide⟩

/-- C3 amended: a single publish invokes the handlers of the topic in
registration order, and all N of them when none throws; but handler
invocations are not isolated — publishToOrg and the widget publish have
no try/catch, so the first throwing handler aborts the iteration and
every handler registered after it is not invoked. -/
theorem c3_publish_in_order_until_first_throw
    (b : OrgBus) (wb : WidgetBus) (torg tw : String) (throws : Nat → Bool)
    (regs : List OrgReg) (cbs : List Nat)
    (hb : mapLookup b.subscribers torg = some regs)
    (hw : mapLookup wb.subscribers tw = some cbs) :
    ((∀ r ∈ regs, throws r.cbId = false) → publishToOrg b torg throws = (regs, true)) ∧
    (∀ l1 r l2, regs = l1 ++ r :: l2 → (∀ x ∈ l1, throws x.cbId = false) →
      throws r.cbId = true → publishToOrg b torg throws = (l1 ++ [r], false)) ∧
    ((∀ c ∈ cbs, throws c = false) → widgetPublish wb tw throws = (cbs, true)) ∧
    (∀ l1 c l2, cbs = l1 ++ c :: l2 → (∀ x ∈ l1, throws x = false) →
      throws c = true → widgetPublish wb tw throws = (l1 ++ [c], false)) := by
  refine ⟨?_, ?_, ?_, ?_⟩
  · intro h
    unfold publishToOrg
    rw [hb]
    exact runOrgCallbacks_all_ok throws regs h
  · intro l1 r l2 hsplit h1 h2
    unfold publishToOrg
    rw [hb, hsplit]
    exact runOrgCallbacks_first_throw throws l1 l2 r h1 h2
  · intro h
    unfold widgetPublish
    rw [hw]
    exact runWidgetCallbacks_all_ok throws cbs h
  · intro l1 c l2 hsplit h1 h2
    unfold widgetPublish
    rw [hw, hsplit]
    exact runWidgetCallbacks_first_throw throws l1 l2 c h1 h2

/-- C3 witness: the amended theorem evaluated on the two-subscriber org
bus and the two-stream widget bus, with callback 0 throwing: fan-out
stops right after the throwing first handler on both buses. -/
theorem c3_publish_in_order_until_first_throw_witness :
    publishToOrg demoOrgBus "org1" demoThrows = ([⟨0, "alice", 0⟩], false) ∧
    widgetPublish demoWidgetBus "c1" demoThrows = ([0], false) := by
  have h := c3_publish_in_order_until_first_throw demoOrgBus demoWidgetBus "org1" "c1"
    demoThrows [⟨0, "alice", 0⟩, ⟨1, "bob", 1⟩] [0, 1] (by decide) (by decide)
  refine ⟨?_, ?_⟩
  · have := h.2.1 [] ⟨0, "alice", 0⟩ [⟨1, "bob", 1⟩] (by decide)
      (by intro x hx; cases hx) (by decide)
    simpa using this
  · have := h.2.2.2 [] 0 [1] (by decide) (by intro x hx; cases hx) (by decide)
    simpa using this

/-! ## C4: unsubscribe correctness -/

theorem unsubscribeOrg_none (b : OrgBus) (torg : String) (regId : Nat)
    (hl : mapLookup b.subscribers torg = none) :
    unsubscribeOrg b torg regId = b := by
  unfold unsubscribeOrg
  rw [hl]

theorem unsubscribeOrg_some (b : OrgBus) (torg : String) (regId : Nat) (regs : List OrgReg)
    (hl : mapLookup b.subscribers torg = some regs) :
    unsubscribeOrg b torg regId =
      (if (regs.filter (fun r => r.regId != regId)).isEmpty then
        { b with subscribers := mapDelete b.subscribers torg }
      else
        { b with subscribers :=
            mapSet b.subscribers torg (regs.filter (fun r => r.regId != regId)) }) := by
  unfold unsubscribeOrg
  rw [hl]

theorem widgetUnsubscribe_none (wb : WidgetBus) (tw : String) (cbId : Nat)
    (hl : mapLookup wb.subscribers tw = none) :
    widgetUnsubscribe wb tw cbId = wb := by
  unfold widgetUnsubscribe
  rw [hl]

theorem widgetUnsubscribe_some (wb : WidgetBus) (tw : String) (cbId : Nat) (cbs : List Nat)
    (hl : mapLookup wb.subscribers tw = some cbs) :
    widgetUnsubscribe wb tw cbId =
      (if (cbs.filter (fun c => c != cbId)).isEmpty then
        ⟨mapDelete wb.subscribers tw⟩
      else
        ⟨mapSet wb.subscribers tw (cbs.filter (fun c => c != cbId))⟩) := by
  unfold widgetUnsubscribe
  rw [hl]

/-- C4: after the unsubscribe closure of a subscription runs, a publish
on that topic never invokes that registration again, on the org bus and
on the widget bus alike; and when the removed subscription was the last
one of the topic, the whole topic entry is deleted from the registry
map rather than left as an empty set. -/
theorem c4_unsubscribe_removes_registration_and_topic
    (b : OrgBus) (wb : WidgetBus) (torg tw : String) (regId cbId : Nat)
    (throws : Nat → Bool) :
    (∀ r ∈ (publishToOrg (unsubscribeOrg b torg regId) torg throws).1, r.regId ≠ regId) ∧
    (∀ regs, mapLookup b.subscribers torg = some regs → (∀ r ∈ regs, r.regId = regId) →
      mapLookup (unsubscribeOrg b torg regId).subscribers torg = none) ∧
    (∀ c ∈ (widgetPublish (widgetUnsubscribe wb tw cbId) tw throws).1, c ≠ cbId) ∧
    (∀ cbs, mapLookup wb.subscribers tw = some cbs → (∀ c ∈ cbs, c = cbId) →
      mapLookup (widgetUnsubscribe wb tw cbId).subscribers tw = none) := by
  refine ⟨?_, ?_, ?_, ?_⟩
  · intro r hr
    cases hl : mapLookup b.subscribers torg with
    | none =>
      rw [unsubscribeOrg_none b torg regId hl] at hr
      unfold publishToOrg at hr
      rw [hl] at hr
      cases hr
    | some regs =>
      rw [unsubscribeOrg_some b torg regId regs hl] at hr
      by_cases he : (regs.filter (fun r => r.regId != regId)).isEmpty
      · rw [if_pos he] at hr
        unfold publishToOrg at hr
        rw [mapLookup_mapDelete_self] at hr
        cases hr
      · rw [if_neg he] at hr
        unfold publishToOrg at hr
        rw [mapLookup_mapSet_self] at hr
        have hmem := runOrgCallbacks_mem throws (regs.filter (fun r => r.regId != regId)) r hr
        have := List.of_mem_filter hmem
        simpa [bne] using this
  · intro regs hl hall
    rw [unsubscribeOrg_some b torg regId regs hl]
    have hnil : regs.filter (fun r => r.regId != regId) = [] := by
      refine List.filter_eq_nil_iff.mpr ?_
      intro r hr
      simp [bne, hall r hr]
    rw [hnil]
    simp only [List.isEmpty_nil, if_pos]
    exact mapLookup_mapDelete_self b.subscribers torg
  · intro c hc
    cases hl : mapLookup wb.subscribers tw with
    | none =>
      rw [widgetUnsubscribe_none wb tw cbId hl] at hc
      unfold widgetPublish at hc
      rw [hl] at hc
      cases hc
    | some cbs =>
      rw [widgetUnsubscribe_some wb tw cbId cbs hl] at hc
      by_cases he : (cbs.filter (fun c => c != cbId)).isEmpty
      · rw [if_pos he] at hc
        unfold widgetPublish at hc
        rw [mapLookup_mapDelete_self] at hc
        cases hc
      · rw [if_neg he] at hc
        unfold widgetPublish at hc
        rw [mapLookup_mapSet_self] at hc
        have hmem := runWidgetCallbacks_mem throws (cbs.filter (fun c => c != cbId)) c hc
        have := List.of_mem_filter hmem
        simpa [bne] using this
  · intro cbs hl hall
    rw [widgetUnsubscribe_some wb tw cbId cbs hl]
    have hnil : cbs.filter (fun c => c != cbId) = [] := by
      refine List.filter_eq_nil_iff.mpr ?_
      intro c hc
      simp [bne, hall c hc]
    rw [hnil]
    simp only [List.isEmpty_nil, if_pos]
    exact mapLookup_mapDelete_self wb.subscribers tw

/-- C4 witness: on a bus whose org1 topic holds exactly one
subscription, running that subscription's unsubscribe deletes the whole
topic entry, on both buses. -/
theorem c4_unsubscribe_removes_registration_and_topic_witness :
    mapLookup (unsubscribeOrg demoSingleBus "org1" 0).subscribers "org1" = none ∧
    mapLookup (widgetUnsubscribe demoSingleWidgetBus "c1" 7).subscribers "c1" = none := by
  have h := c4_unsubscribe_removes_registration_and_topic demoSingleBus demoSingleWidgetBus
    "org1" "c1" 0 7 (fun _ => false)
  exact ⟨h.2.1 [⟨0, "alice", 0⟩] (by decide) (by decide),
         h.2.2.2 [7] (by decide) (by decide)⟩

/-! ## C10: double subscription of one callback -/

theorem publishToOrg_some (b : OrgBus) (torg : String) (throws : Nat → Bool)
    (regs : List OrgReg) (hl : mapLookup b.subscribers torg = some regs) :
    publishToOrg b torg throws = runOrgCallbacks throws regs := by
  unfold publishToOrg
  rw [hl]

theorem mapLookup_mem {β : Type} (m : List (String × β)) (k : String) (v : β)
    (h : mapLookup m k = some v) : ∃ e ∈ m, e.2 = v := by
  unfold mapLookup at h
  cases hf : m.find? (fun e => e.1 == k) with
  | none => rw [hf] at h; cases h
  | some e =>
    rw [hf] at h
    exact ⟨e, List.mem_of_find?_eq_some hf, by simpa using h⟩

/-- C10: subscribing the same callback twice under one organization topic
creates two distinct registrations (the source allocates a fresh
SubscriberCallback object per call); one publish then invokes the
callback once per registration, after the pre-existing subscribers and
in registration order; and the first unsubscribe closure removes exactly
its own registration, leaving the second registration and every
pre-existing subscriber of the topic intact. -/
theorem c10_same_callback_twice_two_registrations
    (b : OrgBus) (orgId userId : String) (cbId : Nat) (regs0 : List OrgReg)
    (hwf : ∀ e ∈ b.subscribers, ∀ r ∈ e.2, r.regId < b.nextRegId)
    (h0 : (mapLookup b.subscribers orgId).getD [] = regs0) :
    (subscribeOrg b orgId userId cbId).2 ≠
      (subscribeOrg (subscribeOrg b orgId userId cbId).1 orgId userId cbId).2 ∧
    mapLookup (subscribeOrg (subscribeOrg b orgId userId cbId).1 orgId userId cbId).1.subscribers
      orgId = some (regs0 ++ [⟨b.nextRegId, userId, cbId⟩, ⟨b.nextRegId + 1, userId, cbId⟩]) ∧
    (publishToOrg (subscribeOrg (subscribeOrg b orgId userId cbId).1 orgId userId cbId).1
      orgId (fun _ => false)).1.map OrgReg.cbId = regs0.map OrgReg.cbId ++ [cbId, cbId] ∧
    mapLookup (unsubscribeOrg
        (subscribeOrg (subscribeOrg b orgId userId cbId).1 orgId userId cbId).1
        orgId (subscribeOrg b orgId userId cbId).2).subscribers orgId =
      some (regs0 ++ [⟨b.nextRegId + 1, userId, cbId⟩]) := by
  have hregs0 : ∀ r ∈ regs0, r.regId < b.nextRegId := by
    intro r hr
    cases hl : mapLookup b.subscribers orgId with
    | none =>
      rw [hl] at h0
      simp at h0
      subst h0
      cases hr
    | some rs =>
      rw [hl] at h0
      simp at h0
      subst h0
      obtain ⟨e, hem, he2⟩ := mapLookup_mem _ _ _ hl
      rw [← he2] at hr
      exact hwf e hem r hr
  have e1 : subscribeOrg b orgId userId cbId =
      (⟨b.nextRegId + 1,
        mapSet b.subscribers orgId (regs0 ++ [⟨b.nextRegId, userId, cbId⟩])⟩, b.nextRegId) := by
    unfold subscribeOrg
    rw [h0]
  rw [e1]
  have hl1 : mapLookup (mapSet b.subscribers orgId (regs0 ++ [⟨b.nextRegId, userId, cbId⟩]))
      orgId = some (regs0 ++ [⟨b.nextRegId, userId, cbId⟩]) :=
    mapLookup_mapSet_self _ _ _
  have e2 : subscribeOrg
      (⟨b.nextRegId + 1, mapSet b.subscribers orgId (regs0 ++ [⟨b.nextRegId, userId, cbId⟩])⟩ :
        OrgBus) orgId userId cbId =
      (⟨b.nextRegId + 1 + 1,
        mapSet (mapSet b.subscribers orgId (regs0 ++ [⟨b.nextRegId, userId, cbId⟩])) orgId
          ((regs0 ++ [⟨b.nextRegId, userId, cbId⟩]) ++ [⟨b.nextRegId + 1, userId, cbId⟩])⟩,
       b.nextRegId + 1) := by
    unfold subscribeOrg
    rw [hl1]
    rfl
  rw [e2]
  have hl2 : mapLookup
      (mapSet (mapSet b.subscribers orgId (regs0 ++ [⟨b.nextRegId, userId, cbId⟩])) orgId
        ((regs0 ++ [⟨b.nextRegId, userId, cbId⟩]) ++ [⟨b.nextRegId + 1, userId, cbId⟩]))
      orgId =
      some ((regs0 ++ [⟨b.nextRegId, userId, cbId⟩]) ++ [⟨b.nextRegId + 1, userId, cbId⟩]) :=
    mapLookup_mapSet_self _ _ _
  refine ⟨by simp, ?_, ?_, ?_⟩
  · rw [hl2]
    simp
  · rw [publishToOrg_some _ _ _ _ hl2]
    have hok := runOrgCallbacks_all_ok (fun _ => false)
      ((regs0 ++ [(⟨b.nextRegId, userId, cbId⟩ : OrgReg)]) ++
        [(⟨b.nextRegId + 1, userId, cbId⟩ : OrgReg)])
      (fun r _ => rfl)
    rw [hok]
    simp
  · rw [unsubscribeOrg_some _ _ _ _ hl2]
    have hA : regs0.filter (fun r => r.regId != b.nextRegId) = regs0 := by
      refine List.filter_eq_self.mpr ?_
      intro r hr
      simpa [bne] using Nat.ne_of_lt (hregs0 r hr)
    have hfilter : ((regs0 ++ [(⟨b.nextRegId, userId, cbId⟩ : OrgReg)]) ++
        [(⟨b.nextRegId + 1, userId, cbId⟩ : OrgReg)]).filter (fun r => r.regId != b.nextRegId) =
        regs0 ++ [(⟨b.nextRegId + 1, userId, cbId⟩ : OrgReg)] := by
      rw [List.filter_append, List.filter_append, hA]
      simp [bne]
    rw [hfilter]
    rw [if_neg (by simp)]
    exact mapLookup_mapSet_self _ _ _

/-- C10 witness: starting from the empty bus, two subscriptions of
callback 7 on org1 yield two distinct registration ids; a publish
delivers to callback 7 twice; unsubscribing the first registration
leaves exactly the second. -/
theorem c10_same_callback_twice_two_registrations_witness :
    (subscribeOrg {} "org1" "alice" 7).2 ≠
      (subscribeOrg (subscribeOrg {} "org1" "alice" 7).1 "org1" "alice" 7).2 ∧
    mapLookup (subscribeOrg (subscribeOrg {} "org1" "alice" 7).1 "org1" "alice" 7).1.subscribers
      "org1" = some ([] ++ [⟨0, "alice", 7⟩, ⟨0 + 1, "alice", 7⟩]) ∧
    (publishToOrg (subscribeOrg (subscribeOrg {} "org1" "alice" 7).1 "org1" "alice" 7).1
      "org1" (fun _ => false)).1.map OrgReg.cbId = [].map OrgReg.cbId ++ [7, 7] ∧
    mapLookup (unsubscribeOrg
        (subscribeOrg (subscribeOrg {} "org1" "alice" 7).1 "org1" "alice" 7).1
        "org1" (subscribeOrg {} "org1" "alice" 7).2).subscribers "org1" =
      some ([] ++ [⟨0 + 1, "alice", 7⟩]) := by
  exact c10_same_callback_twice_two_registrations {} "org1" "alice" 7 []
    (by intro e he; cases he) (by decide)

/-! ## C8: round-robin-by-load selection -/

theorem firstMinimal_cons_none (a : AgentInfo) (rest : List AgentInfo)
    (h : firstMinimal rest = none) : firstMinimal (a :: rest) = some a := by
  simp only [firstMinimal, h]

theorem firstMinimal_cons_some (a b : AgentInfo) (rest : List AgentInfo)
    (h : firstMinimal rest = some b) :
    firstMinimal (a :: rest) = if b.load < a.load then some b else some a := by
  simp only [firstMinimal, h]

theorem insertByLoad_head (a : AgentInfo) (l : List AgentInfo) :
    (insertByLoad a l).head? = some (match l.head? with
      | none => a
      | some b => if a.load ≤ b.load then a else b) := by
  cases l with
  | nil => rfl
  | cons b rest =>
    by_cases h : a.load ≤ b.load <;> simp [insertByLoad, h]

theorem firstMinimal_mem (l : List AgentInfo) (a : AgentInfo)
    (h : firstMinimal l = some a) : a ∈ l := by
  induction l generalizing a with
  | nil => cases h
  | cons x rest ih =>
    cases hfm : firstMinimal rest with
    | none =>
      rw [firstMinimal_cons_none x rest hfm] at h
      simp at h
      simp [h]
    | some b =>
      rw [firstMinimal_cons_some x b rest hfm] at h
      by_cases hb : b.load < x.load
      · rw [if_pos hb] at h
        simp at h
        subst h
        exact List.mem_cons_of_mem _ (ih b hfm)
      · rw [if_neg hb] at h
        simp at h
        simp [h]

theorem firstMinimal_isSome (l : List AgentInfo) (h : l ≠ []) :
    ∃ m, firstMinimal l = some m := by
  cases l with
  | nil => exact absurd rfl h
  | cons a rest =>
    cases hfm : firstMinimal rest with
    | none => exact ⟨a, firstMinimal_cons_none a rest hfm⟩
    | some b =>
      by_cases hb : b.load < a.load
      · exact ⟨b, by rw [firstMinimal_cons_some a b rest hfm, if_pos hb]⟩
      · exact ⟨a, by rw [firstMinimal_cons_some a b rest hfm, if_neg hb]⟩

theorem firstMinimal_le (l : List AgentInfo) (a : AgentInfo)
    (h : firstMinimal l = some a) : ∀ b ∈ l, a.load ≤ b.load := by
  induction l generalizing a with
  | nil => cases h
  | cons x rest ih =>
    intro b hb
    cases hfm : firstMinimal rest with
    | none =>
      rw [firstMinimal_cons_none x rest hfm] at h
      simp at h
      subst h
      rcases List.mem_cons.mp hb with hb | hb
      · simp [hb]
      · exfalso
        have hne : rest ≠ [] := by
          intro hx
          rw [hx] at hb
          cases hb
        obtain ⟨m, hm⟩ := firstMinimal_isSome rest hne
        rw [hm] at hfm
        cases hfm
    | some m =>
      rw [firstMinimal_cons_some x m rest hfm] at h
      by_cases hm : m.load < x.load
      · rw [if_pos hm] at h
        simp at h
        subst h
        rcases List.mem_cons.mp hb with hb | hb
        · rw [hb]; exact Nat.le_of_lt hm
        · exact ih _ hfm b hb
      · rw [if_neg hm] at h
        simp at h
        subst h
        rcases List.mem_cons.mp hb with hb | hb
        · simp [hb]
        · exact Nat.le_trans (Nat.le_of_not_lt hm) (ih m hfm b hb)

theorem find?_congr_on {α : Type} (l : List α) (p q : α → Bool)
    (h : ∀ x ∈ l, p x = q x) : l.find? p = l.find? q := by
  induction l with
  | nil => rfl
  | cons a rest ih =>
    have ha := h a (List.mem_cons_self a rest)
    simp only [List.find?, ha]
    cases q a with
    | true => rfl
    | false => exact ih (fun x hx => h x (List.mem_cons_of_mem a hx))

theorem sortByLoad_head (l : List AgentInfo) :
    (sortByLoad l).head? = firstMinimal l := by
  induction l with
  | nil => rfl
  | cons a rest ih =>
    simp only [sortByLoad, insertByLoad_head]
    rw [ih]
    cases hfm : firstMinimal rest with
    | none => rw [firstMinimal_cons_none a rest hfm]
    | some b =>
      rw [firstMinimal_cons_some a b rest hfm]
      simp only
      by_cases h : a.load ≤ b.load
      · rw [if_pos h, if_neg (by omega)]
      · rw [if_neg h, if_pos (by omega)]

theorem firstMinimal_eq_find (l : List AgentInfo) :
    firstMinimal l = l.find? (fun a => l.all (fun b => a.load ≤ b.load)) := by
  induction l with
  | nil => rfl
  | cons a rest ih =>
    by_cases hall : ∀ b ∈ rest, a.load ≤ b.load
    · have hPa : (a :: rest).all (fun b => decide (a.load ≤ b.load)) = true := by
        refine List.all_eq_true.mpr ?_
        intro b hb
        rcases List.mem_cons.mp hb with hb | hb
        · simp [hb]
        · simpa using hall b hb
      have hfind : (a :: rest).find? (fun x => (a :: rest).all (fun b => x.load ≤ b.load)) =
          some a := by
        simp only [List.find?]
        rw [hPa]
      rw [hfind]
      cases hfm : firstMinimal rest with
      | none => exact firstMinimal_cons_none a rest hfm
      | some b =>
        have hb := hall b (firstMinimal_mem rest b hfm)
        rw [firstMinimal_cons_some a b rest hfm, if_neg (by omega)]
    · push_neg at hall
      obtain ⟨b0, hb0mem, hb0⟩ := hall
      have hrest : rest ≠ [] := by
        intro hx
        rw [hx] at hb0mem
        cases hb0mem
      obtain ⟨m, hm⟩ := firstMinimal_isSome rest hrest
      have hm_le := firstMinimal_le rest m hm
      have hma : m.load < a.load := Nat.lt_of_le_of_lt (hm_le b0 hb0mem) hb0
      rw [firstMinimal_cons_some a m rest hm, if_pos hma]
      have hPa : (a :: rest).all (fun b => decide (a.load ≤ b.load)) = false := by
        refine List.all_eq_false.mpr ?_
        exact ⟨b0, List.mem_cons_of_mem a hb0mem, by simpa using Nat.not_le.mpr hb0⟩
      have hstep : (a :: rest).find? (fun x => (a :: rest).all (fun b => x.load ≤ b.load)) =
          rest.find? (fun x => (a :: rest).all (fun b => x.load ≤ b.load)) := by
        simp only [List.find?]
        rw [hPa]
      rw [hstep]
      have hcong : rest.find? (fun x => (a :: rest).all (fun b => x.load ≤ b.load)) =
          rest.find? (fun x => rest.all (fun b => x.load ≤ b.load)) := by
        refine find?_congr_on rest _ _ ?_
        intro x hx
        cases hQ : rest.all (fun b => decide (x.load ≤ b.load)) with
        | true =>
          have hxall : ∀ b ∈ rest, x.load ≤ b.load := by
            intro b hb
            simpa using List.all_eq_true.mp hQ b hb
          have hxa : x.load ≤ a.load :=
            Nat.le_of_lt (Nat.lt_of_le_of_lt (hxall b0 hb0mem) hb0)
          simp only [List.all_cons]
          rw [hQ]
          simp [hxa]
        | false =>
          simp only [List.all_cons]
          rw [hQ]
          simp
      rw [hcong, ← ih, hm]

/-- C8: on a non-empty candidate pool, selectAgentRoundRobin returns the
userId of the first agent (in input order) whose count of open-or-pending
assigned conversations is minimal over the pool — the ECMAScript sort is
stable, so ties keep input order — and on an empty pool it returns null.
selectAgentRoundRobinSpec is the transcription of the specified
strategy. -/
theorem c8_round_robin_picks_first_least_loaded (agents : List AgentInfo) :
    selectAgentRoundRobin agents = selectAgentRoundRobinSpec agents ∧
    (agents = [] → selectAgentRoundRobin agents = none) ∧
    (agents ≠ [] → ∃ u, selectAgentRoundRobin agents = some u) := by
  have h1 : selectAgentRoundRobin agents = (sortByLoad agents).head?.map AgentInfo.userId := by
    cases h : sortByLoad agents <;> simp [selectAgentRoundRobin, h]
  refine ⟨?_, ?_, ?_⟩
  · rw [h1, sortByLoad_head, firstMinimal_eq_find]
    rfl
  · intro he
    subst he
    rfl
  · intro hne
    rw [h1, sortByLoad_head]
    obtain ⟨m, hm⟩ := firstMinimal_isSome agents hne
    exact ⟨m.userId, by rw [hm]; rfl⟩

/-- C8 witness: on the pool a(load 2), b(load 1), c(load 1) the strategy
returns b — the least-loaded agent appearing first — and agrees with the
spec transcription; the pool being non-empty, some agent is returned. -/
theorem c8_round_robin_picks_first_least_loaded_witness :
    selectAgentRoundRobin ([⟨"a", 2⟩, ⟨"b", 1⟩, ⟨"c", 1⟩] : List AgentInfo) =
      selectAgentRoundRobinSpec ([⟨"a", 2⟩, ⟨"b", 1⟩, ⟨"c", 1⟩] : List AgentInfo) ∧
    (∃ u, selectAgentRoundRobin ([⟨"a", 2⟩, ⟨"b", 1⟩, ⟨"c", 1⟩] : List AgentInfo) = some u) ∧
    selectAgentRoundRobin ([⟨"a", 2⟩, ⟨"b", 1⟩, ⟨"c", 1⟩] : List AgentInfo) = some "b" := by
  have h := c8_round_robin_picks_first_least_loaded
    ([⟨"a", 2⟩, ⟨"b", 1⟩, ⟨"c", 1⟩] : List AgentInfo)
  exact ⟨h.1, h.2.2 (by decide), by decide⟩

/-! ## Helper lemmas: contact-table updates -/

theorem find?_map_eq {α : Type} (l : List α) (u : α → α) (p : α → Bool) (f : α → α)
    (hp : ∀ x, p (u x) = p x) (huf : ∀ x, p x = true → u x = f x) :
    (l.map u).find? p = (l.find? p).map f := by
  induction l with
  | nil => rfl
  | cons a rest ih =>
    simp only [List.map_cons, List.find?, hp a]
    cases hpa : p a with
    | true => simp [huf a hpa]
    | false => exact ih

theorem find?_map_proj {α γ : Type} (l : List α) (u : α → α) (p : α → Bool) (g : α → γ)
    (hp : ∀ x, p (u x) = p x) (hg : ∀ x, g (u x) = g x) :
    ((l.map u).find? p).map g = (l.find? p).map g := by
  induction l with
  | nil => rfl
  | cons a rest ih =>
    simp only [List.map_cons, List.find?, hp a]
    cases hpa : p a with
    | true => simp [hg a]
    | false => exact ih

theorem updateContacts_find_self (l : List Contact) (uid : Nat) (f : Contact → Contact)
    (hfid : ∀ x, (f x).id = x.id) :
    (updateContacts l uid f).find? (fun x => x.id == uid) =
      (l.find? (fun x => x.id == uid)).map f := by
  refine find?_map_eq l _ _ f ?_ ?_
  · intro x
    by_cases hx : (x.id == uid) = true
    · simp only [hx, if_pos]
      simp [hfid x, beq_iff_eq] at hx ⊢
      exact hx
    · simp only [Bool.not_eq_true] at hx
      simp [hx]
  · intro x hx
    simp [hx]

theorem updateContacts_find_proj {γ : Type} (l : List Contact) (uid qid : Nat)
    (f : Contact → Contact) (g : Contact → γ)
    (hfid : ∀ x, (f x).id = x.id) (hfg : ∀ x, g (f x) = g x) :
    ((updateContacts l uid f).find? (fun x => x.id == qid)).map g =
      (l.find? (fun x => x.id == qid)).map g := by
  refine find?_map_proj l _ _ g ?_ ?_
  · intro x
    by_cases hx : (x.id == uid) = true
    · simp only [hx, if_pos]
      simp [hfid x]
    · simp only [Bool.not_eq_true] at hx
      simp [hx]
  · intro x
    by_cases hx : (x.id == uid) = true
    · simp only [hx, if_pos]
      exact hfg x
    · simp only [Bool.not_eq_true] at hx
      simp [hx]

theorem assignmentView_updateContacts (l : List Contact) (uid : Nat) (f : Contact → Contact)
    (hfid : ∀ x, (f x).id = x.id) (hfa : ∀ x, (f x).assignedToId = x.assignedToId) :
    assignmentView (updateContacts l uid f) = assignmentView l := by
  unfold assignmentView updateContacts
  rw [List.map_map]
  refine List.map_congr_left ?_
  intro a _
  by_cases ha : (a.id == uid) = true
  · simp only [Function.comp, ha, if_pos]
    simp [hfid a, hfa a]
  · simp only [Bool.not_eq_true] at ha
    simp [Function.comp, ha]

theorem createMessageStep_contacts (db : DB) (orgId : String) (chId : Option String)
    (contactId : Nat) (direction msgType content : String) (extId : Option String) (now : Nat) :
    (createMessageStep db orgId chId contactId direction msgType content extId now).1.contacts =
      db.contacts := rfl

theorem nameUpdateStep_snd (db : DB) (p : WaPayload) (c : Contact) (now : Nat) :
    (nameUpdateStep db p c now).2.id = c.id ∧
    (nameUpdateStep db p c now).2.convStatus = c.convStatus ∧
    (nameUpdateStep db p c now).2.assignedToId = c.assignedToId := by
  unfold nameUpdateStep
  by_cases h : p.fromMe = false ∧ optTruthy p.pushName = true ∧ p.pushName ≠ some c.name
  · rw [if_pos h]
    exact ⟨rfl, rfl, rfl⟩
  · rw [if_neg h]
    exact ⟨rfl, rfl, rfl⟩

theorem nameUpdateStep_find_proj {γ : Type} (db : DB) (p : WaPayload) (c : Contact) (now : Nat)
    (qid : Nat) (g : Contact → γ)
    (hg : ∀ (x : Contact) (pn : String) (t : Nat),
      g { x with name := pn, updatedAt := t } = g x) :
    ((nameUpdateStep db p c now).1.contacts.find? (fun x => x.id == qid)).map g =
      (db.contacts.find? (fun x => x.id == qid)).map g := by
  unfold nameUpdateStep
  by_cases h : p.fromMe = false ∧ optTruthy p.pushName = true ∧ p.pushName ≠ some c.name
  · rw [if_pos h]
    exact updateContacts_find_proj db.contacts c.id qid _ g (fun x => rfl)
      (fun x => hg x (p.pushName.getD "") now)
  · rw [if_neg h]

theorem nameUpdateStep_assignmentView (db : DB) (p : WaPayload) (c : Contact) (now : Nat) :
    assignmentView (nameUpdateStep db p c now).1.contacts = assignmentView db.contacts := by
  unfold nameUpdateStep
  by_cases h : p.fromMe = false ∧ optTruthy p.pushName = true ∧ p.pushName ≠ some c.name
  · rw [if_pos h]
    exact assignmentView_updateContacts db.contacts c.id _ (fun x => rfl) (fun x => rfl)
  · rw [if_neg h]

/-! ## Helper lemmas: the inbound WhatsApp pipeline on an existing contact -/

theorem option_map_const {α β : Type} (o : Option α) (k : β) (h : o.isSome) :
    o.map (fun _ => k) = some k := by
  cases o with
  | none => cases h
  | some x => rfl

theorem inboundStatusStep_pos (db : DB) (con : Contact) (now : Nat)
    (h : needsStatusUpdate con.convStatus = true) :
    inboundStatusStep db con now =
      ((⟨updateContacts db.contacts con.id
          (fun x => { x with convStatus := some "pending", updatedAt := now }),
         db.messages, db.nextContactId, db.nextMessageId⟩ : DB),
       [Event.convUpdated con.id "pending" con.assignedToId]) := by
  unfold inboundStatusStep
  rw [if_pos h]

theorem inboundStatusStep_neg (db : DB) (con : Contact) (now : Nat)
    (h : ¬ needsStatusUpdate con.convStatus = true) :
    inboundStatusStep db con now =
      ((⟨updateContacts db.contacts con.id
          (fun x => { x with convStatus := con.convStatus, updatedAt := now }),
         db.messages, db.nextContactId, db.nextMessageId⟩ : DB),
       []) := by
  unfold inboundStatusStep
  rw [if_neg h]

theorem existingContactPath_inbound_eq (db : DB) (ch : ChannelInfo) (p : WaPayload)
    (c : Contact) (d mt ct : String) (now : Nat) (hfm : p.fromMe = false) :
    existingContactPath db ch p c d mt ct now =
      ((inboundStatusStep (createMessageStep (nameUpdateStep db p c now).1 ch.organizationId
          (some ch.id) (nameUpdateStep db p c now).2.id d mt ct (some p.keyId) now).1
          (nameUpdateStep db p c now).2 now).1,
        Event.newMessage (nameUpdateStep db p c now).2.id
          (createMessageStep (nameUpdateStep db p c now).1 ch.organizationId (some ch.id)
            (nameUpdateStep db p c now).2.id d mt ct (some p.keyId) now).2.id d false ::
          (inboundStatusStep (createMessageStep (nameUpdateStep db p c now).1 ch.organizationId
            (some ch.id) (nameUpdateStep db p c now).2.id d mt ct (some p.keyId) now).1
            (nameUpdateStep db p c now).2 now).2) := by
  unfold existingContactPath
  rw [if_pos (by rw [hfm])]

theorem handleMessagesUpsert_existing (db : DB) (ch : ChannelInfo) (p : WaPayload)
    (c : Contact) (now : Nat)
    (hjid : jidIndividual p.remoteJid = true)
    (hacc : acceptedWaMessage p.message = true)
    (hfind : findContactByExternalId db.contacts ch.organizationId p.remoteJid = some c) :
    handleMessagesUpsert db ch p now =
      existingContactPath db ch p c (if p.fromMe then "outbound" else "inbound")
        (parseWaMessage p.message).2 (parseWaMessage p.message).1 now := by
  unfold handleMessagesUpsert
  rw [hjid, hacc, hfind]
  rfl

theorem updateContacts_find_status (l : List Contact) (uid : Nat) (st : Option String) (t : Nat) :
    (updateContacts l uid (fun x => { x with convStatus := st, updatedAt := t })).find?
        (fun x => x.id == uid) =
      (l.find? (fun x => x.id == uid)).map
        (fun x => { x with convStatus := st, updatedAt := t }) :=
  updateContacts_find_self l uid _ (fun _ => rfl)

theorem assignmentView_updateContacts_status (l : List Contact) (uid : Nat)
    (st : Option String) (t : Nat) :
    assignmentView (updateContacts l uid
        (fun x => { x with convStatus := st, updatedAt := t })) =
      assignmentView l :=
  assignmentView_updateContacts l uid _ (fun _ => rfl) (fun _ => rfl)

theorem whatsappInboundExisting (db : DB) (ch : ChannelInfo) (p : WaPayload)
    (c : Contact) (now : Nat)
    (hjid : jidIndividual p.remoteJid = true)
    (hacc : acceptedWaMessage p.message = true)
    (hfm : p.fromMe = false)
    (hfind : findContactByExternalId db.contacts ch.organizationId p.remoteJid = some c) :
    contactStatusById (handleMessagesUpsert db ch p now).1 c.id =
      some (if needsStatusUpdate c.convStatus then some "pending" else c.convStatus) ∧
    convUpdatedEvents (handleMessagesUpsert db ch p now).2 =
      (if needsStatusUpdate c.convStatus then
        [Event.convUpdated c.id "pending" c.assignedToId] else []) ∧
    assignmentView (handleMessagesUpsert db ch p now).1.contacts = assignmentView db.contacts ∧
    contactUpdatedAtById (handleMessagesUpsert db ch p now).1 c.id = some now := by
  have hmem : c ∈ db.contacts := by
    unfold findContactByExternalId at hfind
    exact List.mem_of_find?_eq_some hfind
  have hsome0 : (db.contacts.find? (fun x => x.id == c.id)).isSome :=
    List.find?_isSome.mpr ⟨c, hmem, by simp⟩
  have hsome1 : ((nameUpdateStep db p c now).1.contacts.find? (fun x => x.id == c.id)).isSome := by
    have hp := nameUpdateStep_find_proj db p c now c.id (fun _ => ()) (fun _ _ _ => rfl)
    have h2 := congrArg Option.isSome hp
    rw [Option.isSome_map', Option.isSome_map'] at h2
    rw [h2]
    exact hsome0
  obtain ⟨hid, hst, has⟩ := nameUpdateStep_snd db p c now
  rw [handleMessagesUpsert_existing db ch p c now hjid hacc hfind,
      existingContactPath_inbound_eq db ch p c _ _ _ now hfm]
  by_cases hneed : needsStatusUpdate c.convStatus = true
  · have hneed2 : needsStatusUpdate (nameUpdateStep db p c now).2.convStatus = true := by
      rw [hst]; exact hneed
    rw [inboundStatusStep_pos _ _ _ hneed2]
    refine ⟨?_, ?_, ?_, ?_⟩
    · unfold contactStatusById
      dsimp only
      rw [createMessageStep_contacts, hid, updateContacts_find_status, if_pos hneed]
      cases ho : (nameUpdateStep db p c now).1.contacts.find? (fun x => x.id == c.id) with
      | none => rw [ho] at hsome1; cases hsome1
      | some x => rfl
    · dsimp only
      rw [hid, has, if_pos hneed]
      simp [convUpdatedEvents]
    · dsimp only
      rw [createMessageStep_contacts, assignmentView_updateContacts_status,
        nameUpdateStep_assignmentView]
    · unfold contactUpdatedAtById
      dsimp only
      rw [createMessageStep_contacts, hid, updateContacts_find_status]
      cases ho : (nameUpdateStep db p c now).1.contacts.find? (fun x => x.id == c.id) with
      | none => rw [ho] at hsome1; cases hsome1
      | some x => rfl
  · have hneed2 : ¬ needsStatusUpdate (nameUpdateStep db p c now).2.convStatus = true := by
      rw [hst]; exact hneed
    rw [inboundStatusStep_neg _ _ _ hneed2]
    refine ⟨?_, ?_, ?_, ?_⟩
    · unfold contactStatusById
      dsimp only
      rw [hst, createMessageStep_contacts, hid, updateContacts_find_status, if_neg hneed]
      cases ho : (nameUpdateStep db p c now).1.contacts.find? (fun x => x.id == c.id) with
      | none => rw [ho] at hsome1; cases hsome1
      | some x => rfl
    · dsimp only
      rw [if_neg hneed]
      simp [convUpdatedEvents]
    · dsimp only
      rw [createMessageStep_contacts, assignmentView_updateContacts_status,
        nameUpdateStep_assignmentView]
    · unfold contactUpdatedAtById
      dsimp only
      rw [createMessageStep_contacts, hid, updateContacts_find_status]
      cases ho : (nameUpdateStep db p c now).1.contacts.find? (fun x => x.id == c.id) with
      | none => rw [ho] at hsome1; cases hsome1
      | some x => rfl

/-! ## Helper lemmas: widget message POST -/

theorem widgetPostMessage_some_inv (db : DB) (ch : ChannelInfo) (contactId : Nat)
    (content : String) (now : Nat) (r : DB × List Event)
    (h : widgetPostMessage db ch contactId content now = some r) :
    r.1.contacts = db.contacts ∧ convUpdatedEvents r.2 = [] := by
  unfold widgetPostMessage at h
  by_cases hc : content = ""
  · rw [if_pos hc] at h
    exact Option.noConfusion h
  · rw [if_neg hc] at h
    cases hres : resolveWidgetContact db.contacts contactId ch.id ch.organizationId with
    | none =>
      rw [hres] at h
      exact Option.noConfusion h
    | some x =>
      rw [hres] at h
      injection h with h2
      subst h2
      exact ⟨rfl, rfl⟩

/-! ## C2: status transitions on inbound messages -/

/-- C2 counterexample: the widget message POST stores the inbound
message and publishes it, but never touches convStatus — a resolved
widget conversation stays resolved after an inbound visitor message,
refuting the claim that an inbound message on any channel always moves a
resolved contact to pending. -/
theorem c2_widget_resolved_stays_resolved_counterexample :
    (widgetPostMessage widgetDemoDb widgetDemoChannel 0 "hello" 5).isSome = true ∧
    ((widgetPostMessage widgetDemoDb widgetDemoChannel 0 "hello" 5).map
      (fun r => contactStatusById r.1 0)) = some (some (some "resolved")) ∧
    some "resolved" ≠ some "pending" := by
  refine ⟨by decide, by decide, by decide⟩

/-- C2 amended: on the WhatsApp webhook the invariant holds — an inbound
message on an existing contact in state open or pending leaves convStatus
unchanged and publishes no conv_updated, while a contact whose status is
unset, empty or resolved is moved to pending with exactly one
conv_updated event; the widget message POST, however, never changes any
convStatus (it stores and publishes only), so only the WhatsApp channel
performs the resolved-to-pending transition. -/
theorem c2_inbound_status_transitions
    (db : DB) (ch : ChannelInfo) (p : WaPayload) (c : Contact) (now : Nat)
    (hjid : jidIndividual p.remoteJid = true)
    (hacc : acceptedWaMessage p.message = true)
    (hfm : p.fromMe = false)
    (hfind : findContactByExternalId db.contacts ch.organizationId p.remoteJid = some c) :
    ((c.convStatus = some "open" ∨ c.convStatus = some "pending") →
      contactStatusById (handleMessagesUpsert db ch p now).1 c.id = some c.convStatus ∧
      convUpdatedEvents (handleMessagesUpsert db ch p now).2 = []) ∧
    ((c.convStatus = none ∨ c.convStatus = some "resolved") →
      contactStatusById (handleMessagesUpsert db ch p now).1 c.id = some (some "pending") ∧
      convUpdatedEvents (handleMessagesUpsert db ch p now).2 =
        [Event.convUpdated c.id "pending" c.assignedToId]) ∧
    (∀ (wdb : DB) (wch : ChannelInfo) (cid : Nat) (content : String) (t : Nat) (r : DB × List Event),
      widgetPostMessage wdb wch cid content t = some r →
      r.1.contacts = wdb.contacts ∧ convUpdatedEvents r.2 = []) := by
  obtain ⟨h1, h2, _, _⟩ := whatsappInboundExisting db ch p c now hjid hacc hfm hfind
  refine ⟨?_, ?_, ?_⟩
  · intro hst
    have hneed : needsStatusUpdate c.convStatus = false := by
      rcases hst with h | h <;> rw [h] <;> rfl
    rw [hneed] at h1 h2
    simp only [Bool.false_eq_true, if_neg] at h1 h2
    exact ⟨by simpa using h1, by simpa using h2⟩
  · intro hst
    have hneed : needsStatusUpdate c.convStatus = true := by
      rcases hst with h | h <;> rw [h] <;> rfl
    rw [hneed] at h1 h2
    simp only [if_pos] at h1 h2
    exact ⟨by simpa using h1, by simpa using h2⟩
  · intro wdb wch cid content t r h
    exact widgetPostMessage_some_inv wdb wch cid content t r h

/-- C2 witness: the amended theorem evaluated on an open WhatsApp
contact — an inbound "oi" leaves the status open and publishes no
conv_updated — and on the widget store, where the POST leaves the
contact table untouched. -/
theorem c2_inbound_status_transitions_witness :
    contactStatusById (handleMessagesUpsert waOpenDb waDemoChannel waDemoPayload 9).1 0 =
      some (some "open") ∧
    convUpdatedEvents (handleMessagesUpsert waOpenDb waDemoChannel waDemoPayload 9).2 = [] ∧
    ((widgetPostMessage widgetDemoDb widgetDemoChannel 0 "hello" 9).getD
      (widgetDemoDb, [])).1.contacts = widgetDemoDb.contacts := by
  have h := c2_inbound_status_transitions waOpenDb waDemoChannel waDemoPayload waOpenContact 9
    (by decide) (by decide) (by decide) (by decide)
  have h1 := h.1 (Or.inl (by decide))
  have hw := h.2.2 widgetDemoDb widgetDemoChannel 0 "hello" 9
    ((widgetPostMessage widgetDemoDb widgetDemoChannel 0 "hello" 9).getD (widgetDemoDb, []))
    (by decide)
  exact ⟨by simpa using h1.1, h1.2, hw.1⟩

/-! ## C5: inbound messages never change assignment -/

theorem handleMessagesUpsert_skip (db : DB) (ch : ChannelInfo) (p : WaPayload) (now : Nat)
    (h : jidIndividual p.remoteJid = false ∨ acceptedWaMessage p.message = false) :
    handleMessagesUpsert db ch p now = (db, []) := by
  unfold handleMessagesUpsert
  rcases h with h | h
  · rw [if_pos h]
  · by_cases hj : jidIndividual p.remoteJid = false
    · rw [if_pos hj]
    · rw [if_neg hj, if_pos h]

/-- C5: processing an inbound WhatsApp message for an existing contact
leaves the assignedToId of every contact row unchanged, whatever the
prior conversation state; and the widget message POST leaves the whole
contact table unchanged, so assignments are untouched there as well. -/
theorem c5_inbound_preserves_assignment
    (db : DB) (ch : ChannelInfo) (p : WaPayload) (c : Contact) (now : Nat)
    (hfm : p.fromMe = false)
    (hfind : findContactByExternalId db.contacts ch.organizationId p.remoteJid = some c) :
    assignmentView (handleMessagesUpsert db ch p now).1.contacts = assignmentView db.contacts ∧
    (∀ (wdb : DB) (wch : ChannelInfo) (cid : Nat) (content : String) (t : Nat)
      (r : DB × List Event),
      widgetPostMessage wdb wch cid content t = some r →
      assignmentView r.1.contacts = assignmentView wdb.contacts) := by
  constructor
  · by_cases hjid : jidIndividual p.remoteJid = true
    · by_cases hacc : acceptedWaMessage p.message = true
      · exact (whatsappInboundExisting db ch p c now hjid hacc hfm hfind).2.2.1
      · rw [handleMessagesUpsert_skip db ch p now (Or.inr (by simpa using hacc))]
    · rw [handleMessagesUpsert_skip db ch p now (Or.inl (by simpa using hjid))]
  · intro wdb wch cid content t r h
    rw [(widgetPostMessage_some_inv wdb wch cid content t r h).1]

/-- C5 witness: an inbound message to the open, assigned contact leaves
the (id, assignedToId) view of the table exactly as it was, and a widget
POST leaves the widget contact table untouched. -/
theorem c5_inbound_preserves_assignment_witness :
    assignmentView (handleMessagesUpsert waOpenDb waDemoChannel waDemoPayload 9).1.contacts =
      assignmentView waOpenDb.contacts ∧
    assignmentView ((widgetPostMessage widgetDemoDb widgetDemoChannel 0 "hello" 9).getD
      (widgetDemoDb, [])).1.contacts = assignmentView widgetDemoDb.contacts := by
  have h := c5_inbound_preserves_assignment waOpenDb waDemoChannel waDemoPayload waOpenContact 9
    (by decide) (by decide)
  exact ⟨h.1, h.2 widgetDemoDb widgetDemoChannel 0 "hello" 9
    ((widgetPostMessage widgetDemoDb widgetDemoChannel 0 "hello" 9).getD (widgetDemoDb, []))
    (by decide)⟩

/-! ## C9: updatedAt as the most-recent-activity key -/

/-- C9 counterexample: the widget message POST never updates the contact
row, so the contact updatedAt stays 3 although an inbound visitor
message was ingested at time 99 — refuting the claim that every accepted
inbound message on any channel bumps updatedAt. -/
theorem c9_widget_updatedAt_not_bumped_counterexample :
    ((widgetPostMessage widgetDemoDb widgetDemoChannel 0 "hello" 99).map
      (fun r => contactUpdatedAtById r.1 0)) = some (some 3) ∧ (3 : Nat) ≠ 99 := by
  refine ⟨by decide, by decide⟩

/-- C9 amended: the WhatsApp webhook always updates the contact row on
an accepted inbound message for an existing contact — even when the
status does not change — so updatedAt is stamped with the ingestion
time; the widget message POST does not touch the contact row at all, so
updatedAt is not bumped on the widget channel. -/
theorem c9_updatedAt_bumped_on_whatsapp_inbound
    (db : DB) (ch : ChannelInfo) (p : WaPayload) (c : Contact) (now : Nat)
    (hjid : jidIndividual p.remoteJid = true)
    (hacc : acceptedWaMessage p.message = true)
    (hfm : p.fromMe = false)
    (hfind : findContactByExternalId db.contacts ch.organizationId p.remoteJid = some c) :
    contactUpdatedAtById (handleMessagesUpsert db ch p now).1 c.id = some now ∧
    (∀ (wdb : DB) (wch : ChannelInfo) (cid : Nat) (content : String) (t : Nat)
      (r : DB × List Event),
      widgetPostMessage wdb wch cid content t = some r → r.1.contacts = wdb.contacts) := by
  refine ⟨(whatsappInboundExisting db ch p c now hjid hacc hfm hfind).2.2.2, ?_⟩
  intro wdb wch cid content t r h
  exact (widgetPostMessage_some_inv wdb wch cid content t r h).1

/-- C9 witness: ingesting the inbound "oi" at time 9 stamps the open
contact updatedAt to 9, and a widget POST leaves the widget contact
table untouched. -/
theorem c9_updatedAt_bumped_on_whatsapp_inbound_witness :
    contactUpdatedAtById (handleMessagesUpsert waOpenDb waDemoChannel waDemoPayload 9).1 0 =
      some 9 ∧
    ((widgetPostMessage widgetDemoDb widgetDemoChannel 0 "hello" 9).getD
      (widgetDemoDb, [])).1.contacts = widgetDemoDb.contacts := by
  have h := c9_updatedAt_bumped_on_whatsapp_inbound waOpenDb waDemoChannel waDemoPayload
    waOpenContact 9 (by decide) (by decide) (by decide) (by decide)
  exact ⟨by simpa using h.1, h.2 widgetDemoDb widgetDemoChannel 0 "hello" 9
    ((widgetPostMessage widgetDemoDb widgetDemoChannel 0 "hello" 9).getD (widgetDemoDb, []))
    (by decide)⟩

/-! ## C1: replay of the same externalMessageId -/

/-- C1: the MESSAGES_UPSERT branch of the WhatsApp webhook performs no
lookup by message externalId before inserting — delivering the very same
payload (identical key.id) twice stores two Message rows with the same
(organizationId, externalId) and publishes new_message both times,
where the spec requires the second delivery to be a no-op returning the
existing record with no second row and no re-publish. -/
theorem c1_webhook_replay_creates_duplicate :
    (messagesWithExternalId
      (handleMessagesUpsert (handleMessagesUpsert {} waDemoChannel waDemoPayload 1).1
        waDemoChannel waDemoPayload 2).1 "org1" "3EB0ABC123").length = 2 ∧
    (newMessageEvents (handleMessagesUpsert {} waDemoChannel waDemoPayload 1).2).length = 1 ∧
    (newMessageEvents (handleMessagesUpsert (handleMessagesUpsert {} waDemoChannel
      waDemoPayload 1).1 waDemoChannel waDemoPayload 2).2).length = 1 := by
  refine ⟨by decide, by decide, by decide⟩

/-! ## C6: widget session resume by email -/

theorem widgetPostSession_unchanged (db : DB) (ch : ChannelInfo) (name email : String)
    (phone : Option String) (now : Nat) (c : Contact)
    (hname : name ≠ "") (hemail : email ≠ "")
    (hfind : findWidgetSessionContact db.contacts ch email = some c)
    (hnc : (name != "" && c.name != name) = false)
    (hpc : phoneChangedCheck phone c = false) :
    widgetPostSession db ch name email phone now = some (db, ⟨c.id, c.name, false⟩) := by
  unfold widgetPostSession
  rw [if_neg (by push_neg; exact ⟨hname, hemail⟩), hfind]
  dsimp only
  rw [hnc, hpc]
  rfl

theorem widgetPostSession_changed (db : DB) (ch : ChannelInfo) (name email : String)
    (phone : Option String) (now : Nat) (c : Contact)
    (hname : name ≠ "") (hemail : email ≠ "")
    (hfind : findWidgetSessionContact db.contacts ch email = some c)
    (hch : ((name != "" && c.name != name) || phoneChangedCheck phone c) = true) :
    widgetPostSession db ch name email phone now =
      some ((⟨updateContacts db.contacts c.id (fun x =>
          { x with name := if (name != "" && c.name != name) then name else x.name,
                   phone := if phoneChangedCheck phone c then phone else x.phone,
                   updatedAt := now }),
        db.messages, db.nextContactId, db.nextMessageId⟩ : DB),
       ⟨c.id, if (name != "" && c.name != name) then name else c.name, false⟩) := by
  unfold widgetPostSession
  rw [if_neg (by push_neg; exact ⟨hname, hemail⟩), hfind]
  dsimp only
  rw [if_pos hch]

theorem widgetPostSession_new (db : DB) (ch : ChannelInfo) (name email : String)
    (phone : Option String) (now : Nat)
    (hname : name ≠ "") (hemail : email ≠ "")
    (hfind : findWidgetSessionContact db.contacts ch email = none) :
    widgetPostSession db ch name email phone now =
      some ((⟨db.contacts ++
          [{ id := db.nextContactId, organizationId := ch.organizationId,
             channelId := some ch.id, externalId := none,
             phone := match phone with
               | some p => if p = "" then none else some p
               | none => none,
             name := name, email := some email, convStatus := none,
             assignedToId := none, createdAt := now, updatedAt := now }],
        db.messages, db.nextContactId + 1, db.nextMessageId⟩ : DB),
       ⟨db.nextContactId, name, true⟩) := by
  unfold widgetPostSession
  rw [if_neg (by push_neg; exact ⟨hname, hemail⟩), hfind]

/-- C6: posting a widget session with an email for which a contact
already exists on the (organization, channel) of the api key resumes
that contact: the response carries the existing contactId with
isNew=false and no duplicate row is created; when the submitted name and
phone are unchanged no contact field is modified at all; and after a
first session POST created a contact, the email lookup finds exactly the
contact whose id the first POST returned. -/
theorem c6_widget_session_resume
    (db : DB) (ch : ChannelInfo) (name email : String) (phone : Option String) (now : Nat)
    (c : Contact)
    (hname : name ≠ "") (hemail : email ≠ "")
    (hfind : findWidgetSessionContact db.contacts ch email = some c) :
    (∃ db2 r, widgetPostSession db ch name email phone now = some (db2, r) ∧
      r.contactId = c.id ∧ r.isNew = false ∧
      db2.contacts.length = db.contacts.length ∧
      (c.name = name → phoneChangedCheck phone c = false → db2 = db ∧ r.name = c.name)) ∧
    (∀ (db0 : DB) (t0 : Nat),
      findWidgetSessionContact db0.contacts ch email = none →
      ∀ db1 r1, widgetPostSession db0 ch name email phone t0 = some (db1, r1) →
        r1.isNew = true ∧
        ∃ c1, findWidgetSessionContact db1.contacts ch email = some c1 ∧
          c1.id = r1.contactId) := by
  constructor
  · by_cases hA : (name != "" && c.name != name) = true
    · refine ⟨_, _, widgetPostSession_changed db ch name email phone now c hname hemail hfind
        (by rw [hA]; rfl), rfl, rfl, ?_, ?_⟩
      · simp [updateContacts]
      · intro hn hp
        rw [hn] at hA
        simp at hA
    · have hA2 : (name != "" && c.name != name) = false := by
        cases hx : (name != "" && c.name != name)
        · rfl
        · exact absurd hx hA
      by_cases hB : phoneChangedCheck phone c = true
      · refine ⟨_, _, widgetPostSession_changed db ch name email phone now c hname hemail hfind
          (by rw [hB]; simp), rfl, rfl, ?_, ?_⟩
        · simp [updateContacts]
        · intro hn hp
          rw [hp] at hB
          exact Bool.noConfusion hB
      · have hB2 : phoneChangedCheck phone c = false := by
          cases hx : phoneChangedCheck phone c
          · rfl
          · exact absurd hx hB
        exact ⟨db, ⟨c.id, c.name, false⟩,
          widgetPostSession_unchanged db ch name email phone now c hname hemail hfind hA2 hB2,
          rfl, rfl, rfl, fun _ _ => ⟨rfl, rfl⟩⟩
  · intro db0 t0 hnone db1 r1 heq
    rw [widgetPostSession_new db0 ch name email phone t0 hname hemail hnone] at heq
    injection heq with h2
    rw [Prod.mk.injEq] at h2
    obtain ⟨hdb1, hr1⟩ := h2
    subst hdb1
    subst hr1
    refine ⟨rfl, ?_⟩
    refine ⟨{ id := db0.nextContactId, organizationId := ch.organizationId,
              channelId := some ch.id, externalId := none,
              phone := match phone with
                | some p => if p = "" then none else some p
                | none => none,
              name := name, email := some email, convStatus := none,
              assignedToId := none, createdAt := t0, updatedAt := t0 }, ?_, rfl⟩
    unfold findWidgetSessionContact at hnone ⊢
    rw [List.find?_append, hnone]
    simp [List.find?]

/-- C6 witness: re-posting the session of ana@x.com with the unchanged
name resumes contact 0 with isNew=false and leaves the store untouched. -/
theorem c6_widget_session_resume_witness :
    ∃ db2 r, widgetPostSession widgetDemoDb widgetDemoChannel "Ana" "ana@x.com" none 7 =
      some (db2, r) ∧ r.contactId = 0 ∧ r.isNew = false ∧ db2 = widgetDemoDb := by
  obtain ⟨⟨db2, r, heq, hcid, hnew, _, hunch⟩, _⟩ :=
    c6_widget_session_resume widgetDemoDb widgetDemoChannel "Ana" "ana@x.com" none 7
      widgetResolvedContact (by decide) (by decide) (by decide)
  exact ⟨db2, r, heq, hcid, hnew, (hunch rfl (by decide)).1⟩

/-! ## C7: lead-webhook signature verification -/

/-- C7 counterexample: with a webhook secret configured, a POST that
simply omits the x-hub-signature-256 header skips verification entirely
and is fully processed — a CampaignLead row and a Contact row are
created — refuting the claim that every lead-webhook POST has its
signature verified before processing. -/
theorem c7_unsigned_batch_processed_counterexample :
    (facebookLeadWebhook leadDemoDb (some ⟨"org1", some "sec"⟩) "org1" none (some "rawbody")
      "page" [[leadDemoChange]] leadDemoHmac leadDemoFetch 7).1 = FbResponse.eventReceived ∧
    ((facebookLeadWebhook leadDemoDb (some ⟨"org1", some "sec"⟩) "org1" none (some "rawbody")
      "page" [[leadDemoChange]] leadDemoHmac leadDemoFetch 7).2.campaignLeads.length = 1) ∧
    ((facebookLeadWebhook leadDemoDb (some ⟨"org1", some "sec"⟩) "org1" none (some "rawbody")
      "page" [[leadDemoChange]] leadDemoHmac leadDemoFetch 7).2.contacts.length = 1) := by
  refine ⟨by decide, by decide, by decide⟩

/-- C7 amended: signature verification runs only when a signature header
was supplied and a raw body was captured; in that case a signature whose
hex-decoded bytes differ from the HMAC digest of the raw body is
rejected with 403 before any processing — the store is returned
unchanged, so no CampaignLead and no Contact row is created for any
entry of the batch.  A POST without a signature header (or whose raw
body was not captured) is processed without verification. -/
theorem c7_signature_mismatch_rejected_before_processing
    (db : LeadDB) (o : FbOrg) (orgId : String) (sig raw secret : String)
    (bodyObject : String) (entries : List (List LeadChange))
    (hmacHex : String → String → String)
    (fetchLead : String → String → Option LeadData) (now : Nat)
    (hsec : o.fbAppSecret = some secret) (hsecne : secret ≠ "")
    (hsig : sig ≠ "") (hraw : raw ≠ "")
    (hmis : decodeHex sig ≠ decodeHex (hmacHex secret raw)) :
    facebookLeadWebhook db (some o) orgId (some sig) (some raw) bodyObject entries
      hmacHex fetchLead now = (FbResponse.forbidden, db) := by
  unfold facebookLeadWebhook
  dsimp only
  rw [hsec]
  dsimp only
  rw [if_neg hsecne, if_neg hsig, if_neg hraw, if_pos (by simpa [bne] using hmis)]

/-- C7 witness: with secret sec, supplied signature 00 and raw body x,
the stub digest 01 decodes to different bytes, so the webhook answers
403 and the store is unchanged. -/
theorem c7_signature_mismatch_rejected_witness :
    facebookLeadWebhook leadDemoDb (some ⟨"org1", some "sec"⟩) "org1" (some "00") (some "x")
      "page" [[leadDemoChange]] (fun _ _ => "01") leadDemoFetch 7 =
      (FbResponse.forbidden, leadDemoDb) := by
  exact c7_signature_mismatch_rejected_before_processing leadDemoDb ⟨"org1", some "sec"⟩
    "org1" "00" "x" "sec" "page" [[leadDemoChange]] (fun _ _ => "01") leadDemoFetch 7
    rfl (by decide) (by decide) (by decide) (by decide)
